import Mathlib

/-!
Shallow embedding of the resilient request-execution core of the go-snipeit
client library (package snipeit): the token-bucket rate limiter
(ratelimit.go) and the retrying request executor (Client.DoWithOptions,
doOnce, shouldRetry, newRequestWithContext).

Modelling conventions:
* Go float64 arithmetic is modelled by exact rationals: ℚ in the token
  bucket, the kernel-computable fraction type FQ in the retry path.  All
  claims settled here concern the algebraic structure of the computations
  (min / subtraction / comparison on small decimal values), where float64
  and exact arithmetic agree.
* Go time.Duration (int64 nanoseconds) is modelled by ℤ nanoseconds; the
  Go conversion time.Duration(float64 expression) truncates toward zero,
  modelled by FQ.trunc below.
* Wall-clock instants are passed explicitly ("now" parameters); channel
  races (timer vs. ctx.Done()) are resolved by explicit oracle booleans;
  rand.Float64() values are supplied as oracle rationals in [0,1).
* Errors are an inductive type carrying the information the code
  inspects: the errors.Is(err, context.Canceled / DeadlineExceeded)
  answers, the HTTP status of an ErrorResponse, and a tag distinguishing
  the attempt that produced the value.
-/

namespace Snipeit

/-- Error values observable by the executor.  `ctxCanceled` and
`ctxDeadlineExceeded` are the values of ctx.Err(); `netErr` is a transport
error from http.Client.Do with its errors.Is answers for
context.Canceled / context.DeadlineExceeded; `errorResponse` is the typed
API error built for a non-2xx status; `decodeErr` is a JSON decode failure
on a 2xx body; `getBodyErr` is a failure of Request.GetBody during retry
rebuild.  Tags identify the producing attempt. -/
inductive GoErr where
  | ctxCanceled
  | ctxDeadlineExceeded
  | netErr (tag : Nat) (isCanceled : Bool) (isDeadline : Bool)
  | errorResponse (status : Int) (tag : Nat)
  | decodeErr (tag : Nat)
  | getBodyErr (tag : Nat)
deriving DecidableEq

/-- Value returned by ctx.Err(): context.DeadlineExceeded when the context
had a deadline, context.Canceled otherwise. -/
def ctxErrVal (deadline : Bool) : GoErr :=
  if deadline then GoErr.ctxDeadlineExceeded else GoErr.ctxCanceled

/-- Answer of errors.Is(e, context.Canceled) || errors.Is(e, context.DeadlineExceeded). -/
def GoErr.isCancelOrDeadline : GoErr → Bool
  | .ctxCanceled => true
  | .ctxDeadlineExceeded => true
  | .netErr _ c d => c || d
  | _ => false

/-- Exact fraction (numerator over positive denominator), the model of
float64 values in the retry path.  Values are not kept normalized; every
observation of them in the code goes through multiplication, division,
comparison against integers, or truncation, all of which are independent
of normalization, so this is the same model as ℚ while staying computable
by the kernel. -/
structure FQ where
  n : Int
  d : Int
deriving DecidableEq

/-- Embed an integer (e.g. a time.Duration converted with float64(...)). -/
def FQ.ofInt (i : Int) : FQ := ⟨i, 1⟩

/-- Product of two float64-modelled values. -/
def FQ.mul (a b : FQ) : FQ := ⟨a.n * b.n, a.d * b.d⟩

/-- Quotient of two float64-modelled values (second argument positive in
every use by the code: powers of ten and positive unit sizes). -/
def FQ.div (a b : FQ) : FQ := ⟨a.n * b.d, a.d * b.n⟩

/-- Truncation toward zero: the effect of Go's conversion from float64 to
an integer type (time.Duration, uint64); valid for positive denominators. -/
def FQ.trunc (a : FQ) : Int :=
  if 0 ≤ a.n then a.n / a.d else -((-a.n) / a.d)

/-! ## Token bucket rate limiter (ratelimit.go) -/

/-- Default values for rate limiting and retry (ratelimit.go const block).
Durations are in nanoseconds. -/
def defaultMaxRequestsPerSecond : ℚ := 10

/-- Default burst size. -/
def defaultBurstSize : Int := 15

/-- Default maximum number of retries. -/
def defaultMaxRetries : Int := 3

/-- Default initial backoff: 1 second, in nanoseconds. -/
def defaultInitialBackoff : Int := 1000000000

/-- Default maximum backoff: 30 seconds, in nanoseconds. -/
def defaultMaxBackoff : Int := 30000000000

/-- Default backoff multiplier. -/
def defaultBackoffMultiplier : FQ := FQ.ofInt 2

/-- Default jitter factor (0.2, the rational the Go literal denotes). -/
def defaultJitter : FQ := ⟨1, 5⟩

/-- State of TokenBucketRateLimiter (ratelimit.go).  The mutex is not
modelled: every call holds it for its full duration, so calls are
serialized and each Wait is a function of the pre-state and of the
instant at which it runs.  `lastRefillTime` is an absolute instant in
seconds; `tokens`, `maxTokens`, `tokensPerSec` are the float64 fields. -/
structure TokenBucketRateLimiter where
  tokens : ℚ
  maxTokens : ℚ
  tokensPerSec : ℚ
  lastRefillTime : ℚ
deriving DecidableEq

/-- NewTokenBucketRateLimiter (ratelimit.go): non-positive arguments are
replaced by the defaults; the bucket starts full at the burst size.
`now` is the time.Now() instant of construction. -/
def NewTokenBucketRateLimiter (requestsPerSecond : ℚ) (burstSize : Int) (now : ℚ) :
    TokenBucketRateLimiter :=
  let rps := if requestsPerSecond ≤ 0 then defaultMaxRequestsPerSecond else requestsPerSecond
  let bs := if burstSize ≤ 0 then defaultBurstSize else burstSize
  { tokens := (bs : ℚ)
    maxTokens := (bs : ℚ)
    tokensPerSec := rps
    lastRefillTime := now }

/-- The refill step of Wait: tokens = min(maxTokens, tokens + elapsed*tokensPerSec)
with elapsed = now - lastRefillTime in seconds. -/
def refillTokens (r : TokenBucketRateLimiter) (now : ℚ) : ℚ :=
  min r.maxTokens (r.tokens + (now - r.lastRefillTime) * r.tokensPerSec)

/-- Result of a Wait call: the post-state, the returned error (none on
success), and the duration (seconds) of the timer set on the slow path
(none when a token was consumed immediately). -/
structure WaitRes where
  state : TokenBucketRateLimiter
  err : Option GoErr
  timer : Option ℚ
deriving DecidableEq

/-- TokenBucketRateLimiter.Wait (ratelimit.go).  `now` is the time.Now()
instant at which the call runs; `cancelWins` resolves the select race
between the wait timer and ctx.Done() (true: the context is canceled
first); `ctxDl` tells whether ctx.Err() is context.DeadlineExceeded.
The timer duration (1 - tokens)/tokensPerSec is kept as an exact rational
number of seconds. -/
def TokenBucketRateLimiter.Wait (r : TokenBucketRateLimiter) (now : ℚ)
    (cancelWins : Bool) (ctxDl : Bool) : WaitRes :=
  let r1 : TokenBucketRateLimiter :=
    { r with tokens := refillTokens r now, lastRefillTime := now }
  if 1 ≤ r1.tokens then
    { state := { r1 with tokens := r1.tokens - 1 }, err := none, timer := none }
  else
    let waitTime := (1 - r1.tokens) / r1.tokensPerSec
    if cancelWins then
      { state := r1, err := some (ctxErrVal ctxDl), timer := some waitTime }
    else
      { state := { r1 with tokens := 0 }, err := none, timer := some waitTime }

/-! ## Go time.ParseDuration (standard library), used by shouldRetry on
the Retry-After header with "s" appended -/

/-- Byte test '0' <= c <= '9'. -/
def isDigitCh (c : Char) : Bool := decide ('0' ≤ c) && decide (c ≤ '9')

/-- time.unitMap: nanoseconds per recognized unit suffix. -/
def unitMap (u : String) : Option Nat :=
  if u = "ns" then some 1
  else if u = "us" then some 1000
  else if u = "µs" then some 1000
  else if u = "μs" then some 1000
  else if u = "ms" then some 1000000
  else if u = "s" then some 1000000000
  else if u = "m" then some 60000000000
  else if u = "h" then some 3600000000000
  else none

/-- time.leadingInt: consume leading digits into x (Go uint64 with explicit
overflow checks); none signals the overflow error. -/
def leadingIntGo (x : Nat) : List Char → Option (Nat × List Char)
  | [] => some (x, [])
  | c :: rest =>
    if ¬ isDigitCh c then some (x, c :: rest)
    else if x > 2 ^ 63 / 10 then none
    else
      let x1 := x * 10 + (c.toNat - '0'.toNat)
      if x1 > 2 ^ 63 then none
      else leadingIntGo x1 rest

/-- leadingInt entry point. -/
def leadingInt (s : List Char) : Option (Nat × List Char) := leadingIntGo 0 s

/-- time.leadingFraction: consume digits after the decimal point,
accumulating x and the float64 scale, silently saturating on overflow. -/
def leadingFractionGo (x : Nat) (scale : FQ) (overflow : Bool) :
    List Char → Nat × FQ × List Char
  | [] => (x, scale, [])
  | c :: rest =>
    if ¬ isDigitCh c then (x, scale, c :: rest)
    else if overflow then leadingFractionGo x scale overflow rest
    else if x > (2 ^ 63 - 1) / 10 then leadingFractionGo x scale true rest
    else
      let y := x * 10 + (c.toNat - '0'.toNat)
      if y > 2 ^ 63 then leadingFractionGo x scale true rest
      else leadingFractionGo y (FQ.mul scale (FQ.ofInt 10)) overflow rest

/-- leadingFraction entry point. -/
def leadingFraction (s : List Char) : Nat × FQ × List Char :=
  leadingFractionGo 0 (FQ.ofInt 1) false s

/-- The main loop of time.ParseDuration over the remaining input (a
sequence of number-unit terms), accumulating nanoseconds in d (Go uint64
with explicit overflow checks yielding none).  fuel only bounds recursion:
every iteration consumes at least one character, so length + 1 fuel never
runs out. -/
def durTerms (fuel : Nat) (d : Nat) (s : List Char) : Option Nat :=
  match fuel with
  | 0 => none
  | fuel + 1 =>
    match s with
    | [] => some d
    | c :: _ =>
      if ¬ ((c == '.') || isDigitCh c) then none
      else
        match leadingInt s with
        | none => none
        | some (v, s1) =>
          let pre : Bool := decide (s1.length ≠ s.length)
          let fr : Nat × FQ × List Char × Bool :=
            match s1 with
            | '.' :: rest =>
              let r := leadingFraction rest
              (r.1, r.2.1, r.2.2, decide (r.2.2.length ≠ rest.length))
            | _ => (0, FQ.ofInt 1, s1, false)
          match fr with
          | (f, scale, s2, post) =>
            if pre = false ∧ post = false then none
            else
              let u := s2.takeWhile (fun c => ¬ ((c == '.') || isDigitCh c))
              let s3 := s2.dropWhile (fun c => ¬ ((c == '.') || isDigitCh c))
              if u.length = 0 then none
              else
                match unitMap (String.mk u) with
                | none => none
                | some unit =>
                  if v > 2 ^ 63 / unit then none
                  else
                    let v1 := v * unit
                    let v2 :=
                      if 0 < f then
                        v1 + (FQ.trunc (FQ.mul (FQ.ofInt (f : Int))
                          (FQ.div (FQ.ofInt (unit : Int)) scale))).toNat
                      else v1
                    if 0 < f ∧ v2 > 2 ^ 63 then none
                    else if d + v2 > 2 ^ 63 then none
                    else durTerms fuel (d + v2) s3

/-- time.ParseDuration: duration in nanoseconds, none on a parse error.
Fractional arithmetic (Go float64) is modelled by exact rationals; the
uint64(float64(...)) conversion is modelled by truncation. -/
def ParseDuration (str : String) : Option Int :=
  let l := str.data
  let signed : Bool × List Char :=
    match l with
    | c :: rest => if c == '-' || c == '+' then (c == '-', rest) else (false, l)
    | [] => (false, l)
  let neg := signed.1
  let s := signed.2
  if s = ['0'] then some 0
  else if s = [] then none
  else
    match durTerms (s.length + 1) 0 s with
    | none => none
    | some d =>
      if neg then some (-(d : Int))
      else if d > 2 ^ 63 - 1 then none
      else some (d : Int)

/-! ## Retry policy, shouldRetry, doOnce -/

/-- HTTP response as observed by the retry logic: status code, the value of
Header.Get("Retry-After") (empty string when the header is absent), and a
tag identifying the attempt that produced it. -/
structure RespM where
  StatusCode : Int
  retryAfterHeader : String
  tag : Nat
deriving DecidableEq

/-- RetryPolicy (ratelimit.go).  RetryableStatusCodes lists the codes the
Go map sends to true; durations in nanoseconds. -/
structure RetryPolicyM where
  MaxRetries : Int
  RetryableStatusCodes : List Int
  InitialBackoff : Int
  MaxBackoff : Int
  BackoffMultiplier : FQ
  Jitter : FQ

/-- DefaultRetryPolicy (ratelimit.go). -/
def DefaultRetryPolicy : RetryPolicyM :=
  { MaxRetries := defaultMaxRetries
    RetryableStatusCodes := [429, 500, 502, 503, 504]
    InitialBackoff := defaultInitialBackoff
    MaxBackoff := defaultMaxBackoff
    BackoffMultiplier := defaultBackoffMultiplier
    Jitter := defaultJitter }

/-- First guard of shouldRetry: err == nil && resp != nil && 200 <= status <= 299. -/
def respIs2xx : Option RespM → Bool
  | some r => decide (200 ≤ r.StatusCode) && decide (r.StatusCode < 300)
  | none => false

/-- The transport-error tail of shouldRetry: cancellation and deadline
errors are terminal, any other non-nil error retries; nil error does not. -/
def errRetryDecision : Option GoErr → Bool × Int
  | some e => if e.isCancelOrDeadline then (false, 0) else (true, 0)
  | none => (false, 0)

/-- Retry-After handling inside shouldRetry for a retryable status: parse
the header with "s" appended as a Go duration; failing that, parse it as an
RFC1123 date and use the time until it when positive.  time.Parse(RFC1123)
composed with time.Until is modelled by the oracle dateDelay, giving the
signed nanoseconds until the denoted date (none when the header is not a
valid RFC1123 date). -/
def retryAfterHint (dateDelay : String → Option Int) (r : RespM) : Int :=
  if r.retryAfterHeader = "" then 0
  else
    match ParseDuration (r.retryAfterHeader ++ "s") with
    | some seconds => seconds
    | none =>
      match dateDelay r.retryAfterHeader with
      | some delay => if 0 < delay then delay else 0
      | none => 0

/-- Client.shouldRetry: whether to retry, and the explicit Retry-After
delay in nanoseconds (0 when none applies). -/
def shouldRetryM (dateDelay : String → Option Int) (resp : Option RespM)
    (err : Option GoErr) (policy : RetryPolicyM) : Bool × Int :=
  if err.isNone && respIs2xx resp then (false, 0)
  else
    match resp with
    | some r =>
      if policy.RetryableStatusCodes.contains r.StatusCode then
        (true, retryAfterHint dateDelay r)
      else errRetryDecision err
    | none => errRetryDecision err

/-- What the underlying http.Client.Do produced for one attempt. -/
inductive TransportRes where
  | err (e : GoErr)
  | resp (r : RespM) (decodeFails : Bool)
deriving DecidableEq

/-- Oracle for one attempt: the transport outcome and whether ctx.Done()
is already closed when doOnce checks it after a transport error. -/
structure AttemptWorld where
  transport : TransportRes
  ctxDoneAtCheck : Bool
deriving DecidableEq

/-- Client.doOnce: one attempt without retry logic.  vNonNil: a decode
target was supplied (v != nil, not an io.Writer); decodeFails: json
decoding of the 2xx body into the target returns a non-nil, non-EOF
error. -/
def doOnceM (ctxDl : Bool) (vNonNil : Bool) (w : AttemptWorld) :
    Option RespM × Option GoErr :=
  match w.transport with
  | .err e =>
    if w.ctxDoneAtCheck then (none, some (ctxErrVal ctxDl))
    else (none, some e)
  | .resp r decodeFails =>
    if decide (200 > r.StatusCode) || decide (r.StatusCode > 299) then
      (some r, some (GoErr.errorResponse r.StatusCode r.tag))
    else if vNonNil && decodeFails then (some r, some (GoErr.decodeErr r.tag))
    else (some r, none)

/-! ## Request model and the DoWithOptions executor -/

/-- The GetBody closure of a request: the full original content it
re-yields on each call and, when failTag is set, the error it returns
instead.  Requests built by newRequestWithContext over a bytes.Buffer get
a never-failing GetBody. -/
structure GetBodyM where
  content : String
  failTag : Option Nat
deriving DecidableEq

/-- The aspects of http.Request the executor manipulates: the current Body
content (none: no body; some s: a reader that will yield s) and the
optional GetBody closure.  Method, URL and headers are carried unchanged
by Clone and are irrelevant to the claims settled here. -/
structure ReqM where
  bodyContent : Option String
  getBody : Option GetBodyM
deriving DecidableEq

/-- Body aspect of Client.newRequestWithContext: a nil body gives a request
with no Body and nil GetBody; a non-nil body is JSON-encoded into a
bytes.Buffer (encodedBody is the encoder output) and
http.NewRequestWithContext installs a Body reading that buffer plus a
GetBody snapshotting the full buffer contents (never failing). -/
def newRequestWithContextBody (encodedBody : Option String) : ReqM :=
  match encodedBody with
  | none => { bodyContent := none, getBody := none }
  | some s => { bodyContent := some s, getBody := some { content := s, failTag := none } }

/-- RequestOptions (ratelimit.go), context override omitted: the effective
context is modelled directly by the ctx oracles. -/
structure RequestOptionsM where
  DisableRetries : Bool

/-- The Client fields DoWithOptions consults.  The rate limiter is the
abstract RateLimiter interface; its Wait outcome is an oracle of the
execution. -/
structure ClientM where
  hasRateLimiter : Bool
  disableRetries : Bool
  retryPolicy : Option RetryPolicyM

/-- Oracle for one retry round: whether ctx.Done() wins the select against
the wait timer, and the rand.Float64() draw in [0,1). -/
structure RoundWorld where
  ctxCanceledDuringWait : Bool
  rand01 : FQ

/-- Observable events of one DoWithOptions execution: a rate limiter Wait
invocation; an attempt with the body content sent and the doOnce outcome;
a completed inter-attempt wait with the running backoff before and after
the round, the slept duration (nanoseconds) and whether a server-supplied
explicit Retry-After delay was used. -/
inductive Ev where
  | waitCall
  | att (sentBody : Option String) (resp : Option RespM) (err : Option GoErr)
  | sleep (backoffBefore backoffAfter waited : Int) (explicit : Bool)
deriving DecidableEq

/-- The jitter drawn for one computed-backoff wait:
time.Duration(rand.Float64() * (backoff.Seconds() * policy.Jitter) * float64(time.Second)). -/
def jitterAmount (policy : RetryPolicyM) (rand01 : FQ) (backoff : Int) : Int :=
  FQ.trunc (FQ.mul (FQ.mul rand01
    (FQ.mul (FQ.div (FQ.ofInt backoff) (FQ.ofInt 1000000000)) policy.Jitter))
    (FQ.ofInt 1000000000))

/-- The backoff value for the next round after a computed-backoff wait:
backoff = time.Duration(float64(backoff) * BackoffMultiplier), capped at
MaxBackoff. -/
def nextBackoff (policy : RetryPolicyM) (backoff : Int) : Int :=
  let b1 := FQ.trunc (FQ.mul (FQ.ofInt backoff) policy.BackoffMultiplier)
  if b1 > policy.MaxBackoff then policy.MaxBackoff else b1

/-- Outcome of the waiting-and-request-rebuilding phase of one retry
round: the context was canceled during the wait; GetBody failed while
rebuilding the request; or the round proceeds to the next attempt with the
logged sleep event, the backoff for the following round, and the body the
rebuilt request will send. -/
inductive RoundStep where
  | canceled
  | rebuildFailed (ev : Ev) (t : Nat)
  | proceed (ev : Ev) (backoff1 : Int) (sentBody : Option String)

/-- The body of one iteration of the retry loop between the shouldRetry
decision and the next doOnce call: wait (explicit Retry-After delay when
positive, otherwise computed backoff with jitter, advancing the running
backoff) racing ctx.Done(), then clone the original request, re-obtaining
its body from GetBody when present (the clone otherwise carries the
already-drained reader, consumedBody). -/
def roundStep (policy : RetryPolicyM) (req : ReqM) (consumedBody : Option String)
    (rw : RoundWorld) (backoff explicitDelay : Int) : RoundStep :=
  if rw.ctxCanceledDuringWait then RoundStep.canceled
  else
    let evb : Ev × Int :=
      if 0 < explicitDelay then (Ev.sleep backoff backoff explicitDelay true, backoff)
      else
        let waited := backoff - jitterAmount policy rw.rand01 backoff
        (Ev.sleep backoff (nextBackoff policy backoff) waited false,
          nextBackoff policy backoff)
    match req.getBody with
    | some gb =>
      match gb.failTag with
      | some t => RoundStep.rebuildFailed evb.1 t
      | none => RoundStep.proceed evb.1 evb.2 (some gb.content)
    | none => RoundStep.proceed evb.1 evb.2 consumedBody

/-- The retry loop of Client.DoWithOptions (for retries := 0; retries <
MaxRetries; retries++), with remaining the iterations left, retries the Go
counter, backoff the running backoff (nanoseconds) and out the outcome of
the latest attempt.  consumedBody is what the original request Body yields
after the first attempt drained it (some "" when a body was present, none
otherwise); each retry is issued on a Clone of the original request whose
Body is replaced by GetBody output when GetBody is non-nil. -/
def retryLoopM (ctxDl vNonNil : Bool) (policy : RetryPolicyM)
    (dateDelay : String → Option Int) (req : ReqM) (consumedBody : Option String)
    (atts : Nat → AttemptWorld) (rounds : Nat → RoundWorld) :
    Nat → Nat → Int → Option RespM × Option GoErr →
    List Ev × Option RespM × Option GoErr
  | 0, _, _, out => ([], out)
  | remaining + 1, retries, backoff, (resp, err) =>
    let sr := shouldRetryM dateDelay resp err policy
    if sr.1 = false then ([], resp, err)
    else
      match roundStep policy req consumedBody (rounds retries) backoff sr.2 with
      | RoundStep.canceled => ([], resp, some (ctxErrVal ctxDl))
      | RoundStep.rebuildFailed ev t => ([ev], resp, some (GoErr.getBodyErr t))
      | RoundStep.proceed ev backoff1 sent =>
        let out1 := doOnceM ctxDl vNonNil (atts (retries + 1))
        let rest := retryLoopM ctxDl vNonNil policy dateDelay req consumedBody atts
          rounds remaining (retries + 1) backoff1 out1
        (ev :: Ev.att sent out1.1 out1.2 :: rest.1, rest.2)

/-- Resolution of the per-request retry switch: the client-wide flag or
the per-call option. -/
def effectiveDisable (c : ClientM) (opts : Option RequestOptionsM) : Bool :=
  c.disableRetries || (match opts with | some o => o.DisableRetries | none => false)

/-- What the original request Body yields once the first attempt has
drained it: an exhausted reader (empty content) when a body was present,
still no body otherwise. -/
def drainedBody (req : ReqM) : Option String :=
  match req.bodyContent with
  | some _ => some ""
  | none => none

/-- The part of Client.DoWithOptions after the rate limiter gate: resolve
retry enablement, perform the first attempt with doOnce, and (when retries
are enabled and a policy is configured) run the retry loop. -/
def doCore (c : ClientM) (dateDelay : String → Option Int) (req : ReqM)
    (vNonNil : Bool) (opts : Option RequestOptionsM) (ctxDl : Bool)
    (atts : Nat → AttemptWorld) (rounds : Nat → RoundWorld) :
    List Ev × Option RespM × Option GoErr :=
  let first := doOnceM ctxDl vNonNil (atts 0)
  let firstEv := Ev.att req.bodyContent first.1 first.2
  match c.retryPolicy, effectiveDisable c opts with
  | none, _ => ([firstEv], first)
  | some _, true => ([firstEv], first)
  | some policy, false =>
    let rest := retryLoopM ctxDl vNonNil policy dateDelay req (drainedBody req) atts rounds
      policy.MaxRetries.toNat 0 policy.InitialBackoff first
    (firstEv :: rest.1, rest.2)

/-- Client.DoWithOptions.  limiterErr: outcome of rateLimiter.Wait (none =
admitted), consulted only when a limiter is configured; ctxDl: whether
ctx.Err() is DeadlineExceeded; atts and rounds are the per-attempt and
per-round oracles.  Returns the event trace and the final (response,
error) pair handed to the caller. -/
def DoWithOptionsM (c : ClientM) (dateDelay : String → Option Int) (req : ReqM)
    (vNonNil : Bool) (opts : Option RequestOptionsM) (ctxDl : Bool)
    (limiterErr : Option GoErr) (atts : Nat → AttemptWorld)
    (rounds : Nat → RoundWorld) : List Ev × Option RespM × Option GoErr :=
  if c.hasRateLimiter then
    match limiterErr with
    | some e => ([Ev.waitCall], none, some e)
    | none =>
      let core := doCore c dateDelay req vNonNil opts ctxDl atts rounds
      (Ev.waitCall :: core.1, core.2)
  else doCore c dateDelay req vNonNil opts ctxDl atts rounds

/-- Number of rate limiter Wait invocations in a trace. -/
def countWaits (t : List Ev) : Nat :=
  (t.filter fun e => match e with | .waitCall => true | _ => false).length

/-- Number of attempts (doOnce calls) in a trace. -/
def countAtts (t : List Ev) : Nat :=
  (t.filter fun e => match e with | .att _ _ _ => true | _ => false).length

/-- Data of the last attempt in a trace: body sent and doOnce outcome. -/
def lastAttempt : List Ev → Option (Option String × Option RespM × Option GoErr)
  | [] => none
  | e :: t =>
    match lastAttempt t with
    | some x => some x
    | none =>
      match e with
      | .att b r er => some (b, r, er)
      | _ => none

/-- A final error possibly replaced on the way out of the loop: it is the
latest attempt's error, or a cancellation surfaced from an inter-attempt
wait, or a GetBody failure from a request rebuild. -/
def errFromRound (ctxDl : Bool) (efinal e : Option GoErr) : Prop :=
  efinal = e ∨ efinal = some (ctxErrVal ctxDl) ∨ ∃ t, efinal = some (GoErr.getBodyErr t)

/-- Decimal value of a digit string. -/
def decDigits (ds : List Char) : Nat :=
  ds.foldl (fun a c => a * 10 + (c.toNat - '0'.toNat)) 0

/-- The claim's "integer count of seconds" form: a non-empty string of
decimal digits. -/
def isIntSecondsString (str : String) : Bool :=
  decide (str.data ≠ []) && str.data.all isDigitCh

/-! ## Claims C4 and C5: token bucket behaviour and invariant -/

/-- C4: every Wait call refills to min(maxTokens, tokens + elapsed*rate) and
stamps lastRefillTime := now; with at least one refilled token it decrements
by one and succeeds immediately (no timer); otherwise it sets a timer of
(1 - tokens)/rate seconds racing cancellation — timer first: tokens := 0 and
success; cancellation first: the cancellation reason is returned and the
bucket keeps the refilled value (no rollback). -/
theorem c4_token_bucket_wait_behaviour (r : TokenBucketRateLimiter) (now : ℚ)
    (cancelWins ctxDl : Bool) :
    (r.Wait now cancelWins ctxDl).state.lastRefillTime = now ∧
    (r.Wait now cancelWins ctxDl).state.maxTokens = r.maxTokens ∧
    (r.Wait now cancelWins ctxDl).state.tokensPerSec = r.tokensPerSec ∧
    (1 ≤ refillTokens r now →
      (r.Wait now cancelWins ctxDl).state.tokens = refillTokens r now - 1 ∧
      (r.Wait now cancelWins ctxDl).err = none ∧
      (r.Wait now cancelWins ctxDl).timer = none) ∧
    (¬ 1 ≤ refillTokens r now →
      (r.Wait now cancelWins ctxDl).timer =
        some ((1 - refillTokens r now) / r.tokensPerSec) ∧
      (cancelWins = false →
        (r.Wait now cancelWins ctxDl).state.tokens = 0 ∧
        (r.Wait now cancelWins ctxDl).err = none) ∧
      (cancelWins = true →
        (r.Wait now cancelWins ctxDl).state.tokens = refillTokens r now ∧
        (r.Wait now cancelWins ctxDl).err = some (ctxErrVal ctxDl))) := by
  unfold TokenBucketRateLimiter.Wait
  by_cases h : 1 ≤ refillTokens r now
  · simp [h]
  · cases cancelWins <;> simp [h]

/-- Witness for c4_token_bucket_wait_behaviour: a bucket with no tokens,
cancelled during the wait, keeps the refilled token count and reports the
cancellation reason. -/
theorem c4_token_bucket_wait_behaviour_witness :
    (TokenBucketRateLimiter.Wait ⟨0, 5, 2, 0⟩ 0 true false).state.tokens = refillTokens ⟨0, 5, 2, 0⟩ 0 ∧
    (TokenBucketRateLimiter.Wait ⟨0, 5, 2, 0⟩ 0 true false).err = some (ctxErrVal false) := by
  have h := c4_token_bucket_wait_behaviour ⟨0, 5, 2, 0⟩ 0 true false
  have hlt : ¬ (1 : ℚ) ≤ refillTokens ⟨0, 5, 2, 0⟩ 0 := by
    norm_num [refillTokens]
  exact (h.2.2.2.2 hlt).2.2 rfl

/-- C5: 0 ≤ tokens ≤ maxTokens holds after construction and is preserved by
Wait on every outcome; moreover an unsuccessful Wait never decreases tokens
(tokens is only decremented by successful calls). -/
theorem c5_token_bucket_invariant (rps : ℚ) (burst : Int) (t0 : ℚ)
    (r : TokenBucketRateLimiter) (now : ℚ) (cancelWins ctxDl : Bool)
    (h0 : 0 ≤ r.tokens) (h1 : r.tokens ≤ r.maxTokens)
    (hel : r.lastRefillTime ≤ now) (hrate : 0 ≤ r.tokensPerSec) :
    (0 ≤ (NewTokenBucketRateLimiter rps burst t0).tokens ∧
      (NewTokenBucketRateLimiter rps burst t0).tokens =
        (NewTokenBucketRateLimiter rps burst t0).maxTokens) ∧
    (0 ≤ (r.Wait now cancelWins ctxDl).state.tokens ∧
      (r.Wait now cancelWins ctxDl).state.tokens ≤
        (r.Wait now cancelWins ctxDl).state.maxTokens) ∧
    ((r.Wait now cancelWins ctxDl).err ≠ none →
      r.tokens ≤ (r.Wait now cancelWins ctxDl).state.tokens) := by
  have hmax0 : (0 : ℚ) ≤ r.maxTokens := le_trans h0 h1
  have hfill0 : 0 ≤ refillTokens r now := by
    refine le_min hmax0 ?_
    exact add_nonneg h0 (mul_nonneg (sub_nonneg.mpr hel) hrate)
  have hfill1 : refillTokens r now ≤ r.maxTokens := min_le_left _ _
  have hmono : r.tokens ≤ refillTokens r now := by
    refine le_min h1 ?_
    exact le_add_of_nonneg_right (mul_nonneg (sub_nonneg.mpr hel) hrate)
  constructor
  · constructor
    · unfold NewTokenBucketRateLimiter
      by_cases hb : burst ≤ 0
      · simp [hb, defaultBurstSize]
      · simp only [hb, if_false]
        exact_mod_cast le_of_lt (by omega : (0 : Int) < burst)
    · unfold NewTokenBucketRateLimiter
      by_cases hb : burst ≤ 0 <;> simp [hb]
  · unfold TokenBucketRateLimiter.Wait
    by_cases h : 1 ≤ refillTokens r now
    · simp only [h, if_true]
      refine ⟨⟨?_, ?_⟩, ?_⟩
      · simpa using sub_nonneg.mpr h
      · simpa using le_trans (sub_le_self _ zero_le_one) hfill1
      · simp
    · simp only [h, if_false]
      cases cancelWins
      · simp only [Bool.false_eq_true, if_false]
        refine ⟨⟨le_refl 0, hmax0⟩, ?_⟩
        simp
      · simp only [if_true]
        exact ⟨⟨hfill0, hfill1⟩, fun _ => hmono⟩

/-- Witness for c5_token_bucket_invariant at concrete inputs: a half-full
bucket at construction defaults, one elapsed second. -/
theorem c5_token_bucket_invariant_witness :
    (0 ≤ (NewTokenBucketRateLimiter 0 0 0).tokens ∧
      (NewTokenBucketRateLimiter 0 0 0).tokens =
        (NewTokenBucketRateLimiter 0 0 0).maxTokens) ∧
    (0 ≤ (TokenBucketRateLimiter.Wait ⟨(1:ℚ)/2, 3, 2, 0⟩ 1 false false).state.tokens ∧
      (TokenBucketRateLimiter.Wait ⟨(1:ℚ)/2, 3, 2, 0⟩ 1 false false).state.tokens ≤
        (TokenBucketRateLimiter.Wait ⟨(1:ℚ)/2, 3, 2, 0⟩ 1 false false).state.maxTokens) ∧
    ((TokenBucketRateLimiter.Wait ⟨(1:ℚ)/2, 3, 2, 0⟩ 1 false false).err ≠ none →
      ((1:ℚ)/2) ≤ (TokenBucketRateLimiter.Wait ⟨(1:ℚ)/2, 3, 2, 0⟩ 1 false false).state.tokens) :=
  c5_token_bucket_invariant 0 0 0 ⟨(1:ℚ)/2, 3, 2, 0⟩ 1 false false
    (by norm_num) (by norm_num) (by norm_num) (by norm_num)


/-! ## Helper lemmas about traces, roundStep and the retry loop -/

theorem countWaits_cons (e : Ev) (t : List Ev) :
    countWaits (e :: t) =
      (match e with | Ev.waitCall => 1 | _ => 0) + countWaits t := by
  cases e <;> (simp [countWaits, List.filter_cons]; try omega)

theorem countAtts_cons (e : Ev) (t : List Ev) :
    countAtts (e :: t) =
      (match e with | Ev.att _ _ _ => 1 | _ => 0) + countAtts t := by
  cases e <;> (simp [countAtts, List.filter_cons]; try omega)

theorem roundStep_canceled_iff (policy : RetryPolicyM) (req : ReqM)
    (consumedBody : Option String) (rw : RoundWorld) (backoff ed : Int) :
    roundStep policy req consumedBody rw backoff ed = RoundStep.canceled ↔
      rw.ctxCanceledDuringWait = true := by
  rcases hgb : req.getBody with _ | ⟨gc, gf⟩
  · by_cases hc : rw.ctxCanceledDuringWait <;> simp [roundStep, hc, hgb]
  · rcases gf with _ | t0 <;>
      by_cases hc : rw.ctxCanceledDuringWait <;>
        by_cases hed : 0 < ed <;>
          simp [roundStep, hc, hgb, hed]

theorem roundStep_rebuildFailed_spec (policy : RetryPolicyM) (req : ReqM)
    (consumedBody : Option String) (rw : RoundWorld) (backoff ed : Int)
    (ev : Ev) (t : Nat)
    (h : roundStep policy req consumedBody rw backoff ed = RoundStep.rebuildFailed ev t) :
    (∃ gb, req.getBody = some gb ∧ gb.failTag = some t) ∧
    ((0 < ed ∧ ev = Ev.sleep backoff backoff ed true) ∨
      (¬ 0 < ed ∧ ev = Ev.sleep backoff (nextBackoff policy backoff)
        (backoff - jitterAmount policy rw.rand01 backoff) false)) := by
  unfold roundStep at h
  by_cases hc : rw.ctxCanceledDuringWait
  · simp [hc] at h
  · rcases hgb : req.getBody with _ | ⟨gc, gf⟩ <;> rw [hgb] at h
    · by_cases hed : 0 < ed <;> simp [hc, hed] at h
    · rcases gf with _ | t0 <;> by_cases hed : 0 < ed <;> simp [hc, hed] at h
      · exact ⟨⟨⟨gc, some t0⟩, rfl, by simp [h.2]⟩, Or.inl ⟨hed, h.1.symm⟩⟩
      · exact ⟨⟨⟨gc, some t0⟩, rfl, by simp [h.2]⟩, Or.inr ⟨hed, h.1.symm⟩⟩

theorem roundStep_proceed_spec (policy : RetryPolicyM) (req : ReqM)
    (consumedBody : Option String) (rw : RoundWorld) (backoff ed : Int)
    (ev : Ev) (b1 : Int) (sent : Option String)
    (h : roundStep policy req consumedBody rw backoff ed = RoundStep.proceed ev b1 sent) :
    ((0 < ed ∧ ev = Ev.sleep backoff backoff ed true ∧ b1 = backoff) ∨
      (¬ 0 < ed ∧
        ev = Ev.sleep backoff (nextBackoff policy backoff)
          (backoff - jitterAmount policy rw.rand01 backoff) false ∧
        b1 = nextBackoff policy backoff)) ∧
    ((∃ gb, req.getBody = some gb ∧ gb.failTag = none ∧ sent = some gb.content) ∨
      (req.getBody = none ∧ sent = consumedBody)) := by
  unfold roundStep at h
  by_cases hc : rw.ctxCanceledDuringWait
  · simp [hc] at h
  · rcases hgb : req.getBody with _ | ⟨gc, gf⟩ <;> rw [hgb] at h
    · by_cases hed : 0 < ed <;> simp [hc, hed] at h
      · exact ⟨Or.inl ⟨hed, h.1.symm, h.2.1.symm⟩, Or.inr ⟨rfl, h.2.2.symm⟩⟩
      · exact ⟨Or.inr ⟨hed, h.1.symm, h.2.1.symm⟩, Or.inr ⟨rfl, h.2.2.symm⟩⟩
    · rcases gf with _ | t0 <;> by_cases hed : 0 < ed <;> simp [hc, hed] at h
      · exact ⟨Or.inl ⟨hed, h.1.symm, h.2.1.symm⟩,
          Or.inl ⟨⟨gc, none⟩, rfl, rfl, h.2.2.symm⟩⟩
      · exact ⟨Or.inr ⟨hed, h.1.symm, h.2.1.symm⟩,
          Or.inl ⟨⟨gc, none⟩, rfl, rfl, h.2.2.symm⟩⟩

theorem roundStep_proceed_of_ok (policy : RetryPolicyM) (req : ReqM)
    (consumedBody : Option String) (rw : RoundWorld) (backoff ed : Int)
    (hc : rw.ctxCanceledDuringWait = false)
    (hgb : ∀ gb, req.getBody = some gb → gb.failTag = none) :
    ∃ ev b1 sent,
      roundStep policy req consumedBody rw backoff ed = RoundStep.proceed ev b1 sent := by
  unfold roundStep
  rcases hg : req.getBody with _ | gb
  · simp only [hc, if_false, Bool.false_eq_true]
    exact ⟨_, _, _, rfl⟩
  · simp only [hc, if_false, Bool.false_eq_true, hgb gb hg]
    exact ⟨_, _, _, rfl⟩

theorem countWaits_sleep (bb ba w : Int) (x : Bool) (t : List Ev) :
    countWaits (Ev.sleep bb ba w x :: t) = countWaits t := by
  simp [countWaits, List.filter_cons]

theorem countWaits_att (b : Option String) (r : Option RespM) (e : Option GoErr)
    (t : List Ev) : countWaits (Ev.att b r e :: t) = countWaits t := by
  simp [countWaits, List.filter_cons]

theorem countWaits_wait (t : List Ev) :
    countWaits (Ev.waitCall :: t) = 1 + countWaits t := by
  simp [countWaits, List.filter_cons]
  omega

theorem countAtts_sleep (bb ba w : Int) (x : Bool) (t : List Ev) :
    countAtts (Ev.sleep bb ba w x :: t) = countAtts t := by
  simp [countAtts, List.filter_cons]

theorem countAtts_att (b : Option String) (r : Option RespM) (e : Option GoErr)
    (t : List Ev) : countAtts (Ev.att b r e :: t) = 1 + countAtts t := by
  simp [countAtts, List.filter_cons]
  omega

theorem countAtts_wait (t : List Ev) :
    countAtts (Ev.waitCall :: t) = countAtts t := by
  simp [countAtts, List.filter_cons]

theorem lastAttempt_sleep (bb ba w : Int) (x : Bool) (t : List Ev) :
    lastAttempt (Ev.sleep bb ba w x :: t) = lastAttempt t := by
  simp only [lastAttempt]
  rcases lastAttempt t with _ | y <;> rfl

theorem lastAttempt_att_none (b : Option String) (r : Option RespM) (e : Option GoErr)
    (t : List Ev) (h : lastAttempt t = none) :
    lastAttempt (Ev.att b r e :: t) = some (b, r, e) := by
  simp only [lastAttempt, h]

theorem lastAttempt_att_some (b : Option String) (r : Option RespM) (e : Option GoErr)
    (t : List Ev) (y : Option String × Option RespM × Option GoErr)
    (h : lastAttempt t = some y) :
    lastAttempt (Ev.att b r e :: t) = some y := by
  simp only [lastAttempt, h]

theorem retryLoopM_waits (ctxDl vNonNil : Bool) (policy : RetryPolicyM)
    (dateDelay : String → Option Int) (req : ReqM) (consumedBody : Option String)
    (atts : Nat → AttemptWorld) (rounds : Nat → RoundWorld) :
    ∀ (remaining retries : Nat) (backoff : Int) (out : Option RespM × Option GoErr),
      countWaits (retryLoopM ctxDl vNonNil policy dateDelay req consumedBody atts rounds
        remaining retries backoff out).1 = 0 := by
  intro remaining
  induction remaining with
  | zero => intro retries backoff out; rfl
  | succ n ih =>
    intro retries backoff out
    obtain ⟨resp, err⟩ := out
    simp only [retryLoopM]
    split
    · rfl
    · split
      · rfl
      · rename_i ev t h
        rcases (roundStep_rebuildFailed_spec _ _ _ _ _ _ _ _ h).2 with ⟨_, hev⟩ | ⟨_, hev⟩ <;>
          subst hev <;> rfl
      · rename_i ev b1 sent h
        rcases (roundStep_proceed_spec _ _ _ _ _ _ _ _ _ h).1 with ⟨_, hev, _⟩ | ⟨_, hev, _⟩ <;>
          subst hev <;> simp [countWaits_sleep, countWaits_att, ih]

theorem retryLoopM_atts_le (ctxDl vNonNil : Bool) (policy : RetryPolicyM)
    (dateDelay : String → Option Int) (req : ReqM) (consumedBody : Option String)
    (atts : Nat → AttemptWorld) (rounds : Nat → RoundWorld) :
    ∀ (remaining retries : Nat) (backoff : Int) (out : Option RespM × Option GoErr),
      countAtts (retryLoopM ctxDl vNonNil policy dateDelay req consumedBody atts rounds
        remaining retries backoff out).1 ≤ remaining := by
  intro remaining
  induction remaining with
  | zero => intro retries backoff out; exact Nat.le_refl 0
  | succ n ih =>
    intro retries backoff out
    obtain ⟨resp, err⟩ := out
    simp only [retryLoopM]
    split
    · exact Nat.zero_le _
    · split
      · exact Nat.zero_le _
      · rename_i ev t h
        rcases (roundStep_rebuildFailed_spec _ _ _ _ _ _ _ _ h).2 with ⟨_, hev⟩ | ⟨_, hev⟩ <;>
          subst hev <;> simp [countAtts_sleep, countAtts]
      · rename_i ev b1 sent h
        rcases (roundStep_proceed_spec _ _ _ _ _ _ _ _ _ h).1 with ⟨_, hev, _⟩ | ⟨_, hev, _⟩ <;>
          subst hev <;>
          (rw [countAtts_sleep, countAtts_att]
           have hh := ih (retries + 1) b1 (doOnceM ctxDl vNonNil (atts (retries + 1)))
           omega)

theorem retryLoopM_last (ctxDl vNonNil : Bool) (policy : RetryPolicyM)
    (dateDelay : String → Option Int) (req : ReqM) (consumedBody : Option String)
    (atts : Nat → AttemptWorld) (rounds : Nat → RoundWorld) :
    ∀ (remaining retries : Nat) (backoff : Int) (resp : Option RespM) (err : Option GoErr)
      (tr : List Ev) (res : Option RespM × Option GoErr),
      retryLoopM ctxDl vNonNil policy dateDelay req consumedBody atts rounds
        remaining retries backoff (resp, err) = (tr, res) →
      (lastAttempt tr = none ∧ res.1 = resp ∧ errFromRound ctxDl res.2 err) ∨
      (∃ b r e, lastAttempt tr = some (b, r, e) ∧ res.1 = r ∧ errFromRound ctxDl res.2 e) := by
  intro remaining
  induction remaining with
  | zero =>
    intro retries backoff resp err tr res h
    simp only [retryLoopM] at h
    obtain ⟨h1, h2⟩ := Prod.mk.injEq .. ▸ h
    exact Or.inl ⟨h1 ▸ rfl, by rw [← h2], Or.inl (by rw [← h2])⟩
  | succ n ih =>
    intro retries backoff resp err tr res h
    simp only [retryLoopM] at h
    split at h
    · obtain ⟨h1, h2⟩ := Prod.mk.injEq .. ▸ h
      exact Or.inl ⟨h1 ▸ rfl, by rw [← h2], Or.inl (by rw [← h2])⟩
    · split at h
      · obtain ⟨h1, h2⟩ := Prod.mk.injEq .. ▸ h
        exact Or.inl ⟨h1 ▸ rfl, by rw [← h2], Or.inr (Or.inl (by rw [← h2]))⟩
      · rename_i ev t hrs
        obtain ⟨h1, h2⟩ := Prod.mk.injEq .. ▸ h
        rcases (roundStep_rebuildFailed_spec _ _ _ _ _ _ _ _ hrs).2 with ⟨_, hev⟩ | ⟨_, hev⟩ <;>
          refine Or.inl ⟨?_, by rw [← h2], Or.inr (Or.inr ⟨t, by rw [← h2]⟩)⟩ <;>
            rw [← h1, hev, lastAttempt_sleep] <;> rfl
      · rename_i ev b1 sent hrs
        obtain ⟨h1, h2⟩ := Prod.mk.injEq .. ▸ h
        have hrec := ih (retries + 1) b1
          (doOnceM ctxDl vNonNil (atts (retries + 1))).1
          (doOnceM ctxDl vNonNil (atts (retries + 1))).2
          (retryLoopM ctxDl vNonNil policy dateDelay req consumedBody atts rounds
            n (retries + 1) b1 (doOnceM ctxDl vNonNil (atts (retries + 1)))).1
          (retryLoopM ctxDl vNonNil policy dateDelay req consumedBody atts rounds
            n (retries + 1) b1 (doOnceM ctxDl vNonNil (atts (retries + 1)))).2
          (by rw [Prod.mk.eta, Prod.mk.eta])
        have hevS : ∃ sb sa sw sx, ev = Ev.sleep sb sa sw sx := by
          rcases (roundStep_proceed_spec _ _ _ _ _ _ _ _ _ hrs).1 with ⟨_, hev, _⟩ | ⟨_, hev, _⟩ <;>
            exact ⟨_, _, _, _, hev⟩
        obtain ⟨sb, sa, sw, sx, hev⟩ := hevS
        rcases hrec with ⟨hl, hr1, hr2⟩ | ⟨b0, r0, e0, hl, hr1, hr2⟩
        · refine Or.inr ⟨sent, (doOnceM ctxDl vNonNil (atts (retries + 1))).1,
            (doOnceM ctxDl vNonNil (atts (retries + 1))).2, ?_, ?_, ?_⟩
          · rw [← h1, hev, lastAttempt_sleep, lastAttempt_att_none _ _ _ _ hl]
          · rw [← h2, hr1]
          · rw [← h2]; exact hr2
        · refine Or.inr ⟨b0, r0, e0, ?_, ?_, ?_⟩
          · rw [← h1, hev, lastAttempt_sleep, lastAttempt_att_some _ _ _ _ _ hl]
          · rw [← h2, hr1]
          · rw [← h2]; exact hr2

theorem retryLoopM_last_clean (ctxDl vNonNil : Bool) (policy : RetryPolicyM)
    (dateDelay : String → Option Int) (req : ReqM) (consumedBody : Option String)
    (atts : Nat → AttemptWorld) (rounds : Nat → RoundWorld)
    (hnc : ∀ i, (rounds i).ctxCanceledDuringWait = false)
    (hgb : ∀ gb, req.getBody = some gb → gb.failTag = none) :
    ∀ (remaining retries : Nat) (backoff : Int) (resp : Option RespM) (err : Option GoErr)
      (tr : List Ev) (res : Option RespM × Option GoErr),
      retryLoopM ctxDl vNonNil policy dateDelay req consumedBody atts rounds
        remaining retries backoff (resp, err) = (tr, res) →
      (lastAttempt tr = none ∧ res = (resp, err)) ∨
      (∃ b r e, lastAttempt tr = some (b, r, e) ∧ res = (r, e)) := by
  intro remaining
  induction remaining with
  | zero =>
    intro retries backoff resp err tr res h
    simp only [retryLoopM] at h
    obtain ⟨h1, h2⟩ := Prod.mk.injEq .. ▸ h
    exact Or.inl ⟨h1 ▸ rfl, h2.symm⟩
  | succ n ih =>
    intro retries backoff resp err tr res h
    simp only [retryLoopM] at h
    split at h
    · obtain ⟨h1, h2⟩ := Prod.mk.injEq .. ▸ h
      exact Or.inl ⟨h1 ▸ rfl, h2.symm⟩
    · split at h
      · rename_i hrs
        rw [roundStep_canceled_iff] at hrs
        rw [hnc retries] at hrs
        cases hrs
      · rename_i ev t hrs
        obtain ⟨⟨gb, hg, hft⟩, _⟩ := roundStep_rebuildFailed_spec _ _ _ _ _ _ _ _ hrs
        rw [hgb gb hg] at hft
        cases hft
      · rename_i ev b1 sent hrs
        obtain ⟨h1, h2⟩ := Prod.mk.injEq .. ▸ h
        have hrec := ih (retries + 1) b1
          (doOnceM ctxDl vNonNil (atts (retries + 1))).1
          (doOnceM ctxDl vNonNil (atts (retries + 1))).2
          (retryLoopM ctxDl vNonNil policy dateDelay req consumedBody atts rounds
            n (retries + 1) b1 (doOnceM ctxDl vNonNil (atts (retries + 1)))).1
          (retryLoopM ctxDl vNonNil policy dateDelay req consumedBody atts rounds
            n (retries + 1) b1 (doOnceM ctxDl vNonNil (atts (retries + 1)))).2
          (by rw [Prod.mk.eta, Prod.mk.eta])
        have hevS : ∃ sb sa sw sx, ev = Ev.sleep sb sa sw sx := by
          rcases (roundStep_proceed_spec _ _ _ _ _ _ _ _ _ hrs).1 with ⟨_, hev, _⟩ | ⟨_, hev, _⟩ <;>
            exact ⟨_, _, _, _, hev⟩
        obtain ⟨sb, sa, sw, sx, hev⟩ := hevS
        rcases hrec with ⟨hl, hr⟩ | ⟨b0, r0, e0, hl, hr⟩
        · refine Or.inr ⟨sent, (doOnceM ctxDl vNonNil (atts (retries + 1))).1,
            (doOnceM ctxDl vNonNil (atts (retries + 1))).2, ?_, ?_⟩
          · rw [← h1, hev, lastAttempt_sleep, lastAttempt_att_none _ _ _ _ hl]
          · rw [← h2, hr, Prod.mk.eta]
        · refine Or.inr ⟨b0, r0, e0, ?_, ?_⟩
          · rw [← h1, hev, lastAttempt_sleep, lastAttempt_att_some _ _ _ _ _ hl]
          · rw [← h2, hr]

theorem retryLoopM_bodies (ctxDl vNonNil : Bool) (policy : RetryPolicyM)
    (dateDelay : String → Option Int) (req : ReqM) (consumedBody : Option String)
    (atts : Nat → AttemptWorld) (rounds : Nat → RoundWorld)
    (s : String) (hgb : req.getBody = some ⟨s, none⟩) :
    ∀ (remaining retries : Nat) (backoff : Int) (out : Option RespM × Option GoErr)
      (b : Option String) (r : Option RespM) (e : Option GoErr),
      Ev.att b r e ∈ (retryLoopM ctxDl vNonNil policy dateDelay req consumedBody atts rounds
        remaining retries backoff out).1 → b = some s := by
  intro remaining
  induction remaining with
  | zero =>
    intro retries backoff out b r e hmem
    simp only [retryLoopM, List.not_mem_nil] at hmem
  | succ n ih =>
    intro retries backoff out b r e hmem
    obtain ⟨resp, err⟩ := out
    simp only [retryLoopM] at hmem
    split at hmem
    · simp at hmem
    · split at hmem
      · simp at hmem
      · rename_i ev t hrs
        rcases (roundStep_rebuildFailed_spec _ _ _ _ _ _ _ _ hrs).2 with ⟨_, hev⟩ | ⟨_, hev⟩ <;>
          subst hev <;> simp at hmem
      · rename_i ev b1 sent hrs
        obtain ⟨hev01, hsent⟩ := roundStep_proceed_spec _ _ _ _ _ _ _ _ _ hrs
        have hevS : ∃ sb sa sw sx, ev = Ev.sleep sb sa sw sx := by
          rcases hev01 with ⟨_, hev, _⟩ | ⟨_, hev, _⟩ <;> exact ⟨_, _, _, _, hev⟩
        obtain ⟨sb, sa, sw, sx, hev⟩ := hevS
        subst hev
        rcases List.mem_cons.mp hmem with hx | hmem2
        · cases hx
        · rcases List.mem_cons.mp hmem2 with hx | hmem3
          · obtain ⟨hb, _, _⟩ := Ev.att.injEq .. ▸ hx
            rcases hsent with ⟨gb, hg, _, hs⟩ | ⟨hg, _⟩
            · rw [hgb] at hg
              obtain rfl : gb = ⟨s, none⟩ := (Option.some.injEq .. ▸ hg.symm)
              rw [hb, hs]
            · rw [hgb] at hg; cases hg
          · exact ih (retries + 1) b1 _ b r e hmem3

theorem retryLoopM_sleeps (ctxDl vNonNil : Bool) (policy : RetryPolicyM)
    (dateDelay : String → Option Int) (req : ReqM) (consumedBody : Option String)
    (atts : Nat → AttemptWorld) (rounds : Nat → RoundWorld) :
    ∀ (remaining retries : Nat) (backoff : Int) (out : Option RespM × Option GoErr)
      (bb ba w : Int) (x : Bool),
      Ev.sleep bb ba w x ∈ (retryLoopM ctxDl vNonNil policy dateDelay req consumedBody atts
        rounds remaining retries backoff out).1 →
        (x = true → ba = bb) ∧ (x = false → ba = nextBackoff policy bb) := by
  intro remaining
  induction remaining with
  | zero =>
    intro retries backoff out bb ba w x hmem
    simp only [retryLoopM, List.not_mem_nil] at hmem
  | succ n ih =>
    intro retries backoff out bb ba w x hmem
    obtain ⟨resp, err⟩ := out
    simp only [retryLoopM] at hmem
    split at hmem
    · simp at hmem
    · split at hmem
      · simp at hmem
      · rename_i ev t hrs
        rcases (roundStep_rebuildFailed_spec _ _ _ _ _ _ _ _ hrs).2 with ⟨_, hev⟩ | ⟨_, hev⟩ <;>
          subst hev <;> rcases List.mem_cons.mp hmem with hx | hx <;>
            (try cases (List.not_mem_nil _ hx)) <;>
            (obtain ⟨h1, h2, h3, h4⟩ := Ev.sleep.injEq .. ▸ hx
             subst h1
             subst h2
             subst h4
             first
             | exact And.intro (fun _ => rfl) (fun hfx => nomatch hfx)
             | exact And.intro (fun hfx => nomatch hfx) (fun _ => rfl))
      · rename_i ev b1 sent hrs
        obtain ⟨hev01, _⟩ := roundStep_proceed_spec _ _ _ _ _ _ _ _ _ hrs
        rcases List.mem_cons.mp hmem with hx | hmem2
        · rcases hev01 with ⟨_, hev, _⟩ | ⟨_, hev, _⟩ <;> rw [hev] at hx <;>
            (obtain ⟨h1, h2, h3, h4⟩ := Ev.sleep.injEq .. ▸ hx
             subst h1
             subst h2
             subst h4
             first
             | exact And.intro (fun _ => rfl) (fun hfx => nomatch hfx)
             | exact And.intro (fun hfx => nomatch hfx) (fun _ => rfl))
        · rcases List.mem_cons.mp hmem2 with hx | hmem3
          · cases hx
          · exact ih (retries + 1) b1 _ bb ba w x hmem3

theorem retryLoopM_explicit_first (ctxDl vNonNil : Bool) (policy : RetryPolicyM)
    (dateDelay : String → Option Int) (req : ReqM) (consumedBody : Option String)
    (atts : Nat → AttemptWorld) (rounds : Nat → RoundWorld)
    (remaining retries : Nat) (backoff : Int) (resp : Option RespM) (err : Option GoErr)
    (hsr : (shouldRetryM dateDelay resp err policy).1 = true)
    (hd : 0 < (shouldRetryM dateDelay resp err policy).2)
    (hc : (rounds retries).ctxCanceledDuringWait = false) :
    ∃ rest, (retryLoopM ctxDl vNonNil policy dateDelay req consumedBody atts rounds
      (remaining + 1) retries backoff (resp, err)).1 =
      Ev.sleep backoff backoff (shouldRetryM dateDelay resp err policy).2 true :: rest := by
  simp only [retryLoopM]
  rw [hsr]
  simp only [Bool.true_eq_false, if_false]
  rcases hrs : roundStep policy req consumedBody (rounds retries) backoff
      (shouldRetryM dateDelay resp err policy).2 with _ | ⟨ev, t⟩ | ⟨ev, b1, sent⟩
  · rw [roundStep_canceled_iff] at hrs
    rw [hc] at hrs
    cases hrs
  · rcases (roundStep_rebuildFailed_spec _ _ _ _ _ _ _ _ hrs).2 with ⟨_, hev⟩ | ⟨hned, _⟩
    · exact ⟨[], by rw [hev]⟩
    · exact absurd hd hned
  · rcases (roundStep_proceed_spec _ _ _ _ _ _ _ _ _ hrs).1 with ⟨_, hev, _⟩ | ⟨hned, _, _⟩
    · exact ⟨_, by rw [hev]⟩
    · exact absurd hd hned

theorem retryLoopM_computed_first (ctxDl vNonNil : Bool) (policy : RetryPolicyM)
    (dateDelay : String → Option Int) (req : ReqM) (consumedBody : Option String)
    (atts : Nat → AttemptWorld) (rounds : Nat → RoundWorld)
    (remaining retries : Nat) (backoff : Int) (resp : Option RespM) (err : Option GoErr)
    (hsr : (shouldRetryM dateDelay resp err policy).1 = true)
    (hd : ¬ 0 < (shouldRetryM dateDelay resp err policy).2)
    (hc : (rounds retries).ctxCanceledDuringWait = false) :
    ∃ rest, (retryLoopM ctxDl vNonNil policy dateDelay req consumedBody atts rounds
      (remaining + 1) retries backoff (resp, err)).1 =
      Ev.sleep backoff (nextBackoff policy backoff)
        (backoff - jitterAmount policy (rounds retries).rand01 backoff) false :: rest := by
  simp only [retryLoopM]
  rw [hsr]
  simp only [Bool.true_eq_false, if_false]
  rcases hrs : roundStep policy req consumedBody (rounds retries) backoff
      (shouldRetryM dateDelay resp err policy).2 with _ | ⟨ev, t⟩ | ⟨ev, b1, sent⟩
  · rw [roundStep_canceled_iff] at hrs
    rw [hc] at hrs
    cases hrs
  · rcases (roundStep_rebuildFailed_spec _ _ _ _ _ _ _ _ hrs).2 with ⟨hpos, _⟩ | ⟨_, hev⟩
    · exact absurd hpos hd
    · exact ⟨[], by rw [hev]⟩
  · rcases (roundStep_proceed_spec _ _ _ _ _ _ _ _ _ hrs).1 with ⟨hpos, _, _⟩ | ⟨_, hev, _⟩
    · exact absurd hpos hd
    · exact ⟨_, by rw [hev]⟩

theorem doCore_single (c : ClientM) (dateDelay : String → Option Int) (req : ReqM)
    (vNonNil : Bool) (opts : Option RequestOptionsM) (ctxDl : Bool)
    (atts : Nat → AttemptWorld) (rounds : Nat → RoundWorld)
    (h : c.retryPolicy = none ∨ effectiveDisable c opts = true) :
    doCore c dateDelay req vNonNil opts ctxDl atts rounds =
      ([Ev.att req.bodyContent (doOnceM ctxDl vNonNil (atts 0)).1
          (doOnceM ctxDl vNonNil (atts 0)).2],
        doOnceM ctxDl vNonNil (atts 0)) := by
  unfold doCore
  rcases hr : c.retryPolicy with _ | p
  · rfl
  · rcases h with h | h
    · rw [hr] at h; cases h
    · rw [h]

theorem doCore_loop (c : ClientM) (dateDelay : String → Option Int) (req : ReqM)
    (vNonNil : Bool) (opts : Option RequestOptionsM) (ctxDl : Bool)
    (atts : Nat → AttemptWorld) (rounds : Nat → RoundWorld) (p : RetryPolicyM)
    (hp : c.retryPolicy = some p) (hd : effectiveDisable c opts = false) :
    doCore c dateDelay req vNonNil opts ctxDl atts rounds =
      (Ev.att req.bodyContent (doOnceM ctxDl vNonNil (atts 0)).1
          (doOnceM ctxDl vNonNil (atts 0)).2 ::
        (retryLoopM ctxDl vNonNil p dateDelay req (drainedBody req) atts rounds
          p.MaxRetries.toNat 0 p.InitialBackoff (doOnceM ctxDl vNonNil (atts 0))).1,
        (retryLoopM ctxDl vNonNil p dateDelay req (drainedBody req) atts rounds
          p.MaxRetries.toNat 0 p.InitialBackoff (doOnceM ctxDl vNonNil (atts 0))).2) := by
  unfold doCore
  rw [hp, hd]

theorem DoWithOptionsM_limiter_rejects (c : ClientM) (dateDelay : String → Option Int)
    (req : ReqM) (vNonNil : Bool) (opts : Option RequestOptionsM) (ctxDl : Bool)
    (limiterErr : Option GoErr) (atts : Nat → AttemptWorld) (rounds : Nat → RoundWorld)
    (e : GoErr) (hl : c.hasRateLimiter = true) (he : limiterErr = some e) :
    DoWithOptionsM c dateDelay req vNonNil opts ctxDl limiterErr atts rounds =
      ([Ev.waitCall], none, some e) := by
  unfold DoWithOptionsM
  rw [hl, he]
  rfl

theorem DoWithOptionsM_limiter_admits (c : ClientM) (dateDelay : String → Option Int)
    (req : ReqM) (vNonNil : Bool) (opts : Option RequestOptionsM) (ctxDl : Bool)
    (limiterErr : Option GoErr) (atts : Nat → AttemptWorld) (rounds : Nat → RoundWorld)
    (hl : c.hasRateLimiter = true) (he : limiterErr = none) :
    DoWithOptionsM c dateDelay req vNonNil opts ctxDl limiterErr atts rounds =
      (Ev.waitCall :: (doCore c dateDelay req vNonNil opts ctxDl atts rounds).1,
        (doCore c dateDelay req vNonNil opts ctxDl atts rounds).2) := by
  unfold DoWithOptionsM
  rw [hl, he]
  rfl

theorem DoWithOptionsM_no_limiter (c : ClientM) (dateDelay : String → Option Int)
    (req : ReqM) (vNonNil : Bool) (opts : Option RequestOptionsM) (ctxDl : Bool)
    (limiterErr : Option GoErr) (atts : Nat → AttemptWorld) (rounds : Nat → RoundWorld)
    (hl : c.hasRateLimiter = false) :
    DoWithOptionsM c dateDelay req vNonNil opts ctxDl limiterErr atts rounds =
      doCore c dateDelay req vNonNil opts ctxDl atts rounds := by
  unfold DoWithOptionsM
  rw [hl]
  rfl

theorem lastAttempt_wait (t : List Ev) :
    lastAttempt (Ev.waitCall :: t) = lastAttempt t := by
  simp only [lastAttempt]
  rcases lastAttempt t with _ | y <;> rfl

theorem doCore_waits (c : ClientM) (dateDelay : String → Option Int) (req : ReqM)
    (vNonNil : Bool) (opts : Option RequestOptionsM) (ctxDl : Bool)
    (atts : Nat → AttemptWorld) (rounds : Nat → RoundWorld) :
    countWaits (doCore c dateDelay req vNonNil opts ctxDl atts rounds).1 = 0 := by
  rcases hp : c.retryPolicy with _ | p
  · rw [doCore_single c dateDelay req vNonNil opts ctxDl atts rounds (Or.inl hp)]
    rfl
  · rcases hd : effectiveDisable c opts
    · rw [doCore_loop c dateDelay req vNonNil opts ctxDl atts rounds p hp hd]
      rw [countWaits_att]
      exact retryLoopM_waits ctxDl vNonNil p dateDelay req (drainedBody req) atts rounds
        p.MaxRetries.toNat 0 p.InitialBackoff (doOnceM ctxDl vNonNil (atts 0))
    · rw [doCore_single c dateDelay req vNonNil opts ctxDl atts rounds (Or.inr hd)]
      rfl

/-! ## Claim C1: rate limiter admission -/

/-- C1 (amended): with a rate limiter configured, one execution of
DoWithOptions invokes the Limiter's Wait exactly once, before the first
attempt; when Wait reports an error no attempt at all is made and the
error is returned; retry attempts within the same execution are not
preceded by further Wait calls (the one Wait call is the only one in the
whole trace). -/
theorem c1_limiter_wait_once (c : ClientM) (dateDelay : String → Option Int) (req : ReqM)
    (vNonNil : Bool) (opts : Option RequestOptionsM) (ctxDl : Bool)
    (limiterErr : Option GoErr) (atts : Nat → AttemptWorld) (rounds : Nat → RoundWorld)
    (hl : c.hasRateLimiter = true) :
    countWaits (DoWithOptionsM c dateDelay req vNonNil opts ctxDl limiterErr atts rounds).1
      = 1 ∧
    (limiterErr = none →
      (DoWithOptionsM c dateDelay req vNonNil opts ctxDl limiterErr atts rounds).1.head? =
        some Ev.waitCall) ∧
    (∀ e, limiterErr = some e →
      (DoWithOptionsM c dateDelay req vNonNil opts ctxDl limiterErr atts rounds).1 =
        [Ev.waitCall] ∧
      countAtts (DoWithOptionsM c dateDelay req vNonNil opts ctxDl limiterErr atts rounds).1
        = 0 ∧
      (DoWithOptionsM c dateDelay req vNonNil opts ctxDl limiterErr atts rounds).2 =
        (none, some e)) := by
  rcases he : limiterErr with _ | e
  · rw [DoWithOptionsM_limiter_admits c dateDelay req vNonNil opts ctxDl none atts
      rounds hl rfl]
    refine ⟨?_, fun _ => rfl, fun e h => nomatch h⟩
    rw [countWaits_wait, doCore_waits]
  · rw [DoWithOptionsM_limiter_rejects c dateDelay req vNonNil opts ctxDl (some e) atts
      rounds e hl rfl]
    refine ⟨rfl, ⟨fun h => Option.noConfusion h, fun e0 h => ?_⟩⟩
    obtain rfl : e = e0 := Option.some.injEq .. ▸ h
    exact ⟨rfl, rfl, rfl⟩

/-- Witness for c1_limiter_wait_once: a client with a limiter whose Wait
reports cancellation makes no attempt and performs exactly one Wait call. -/
theorem c1_limiter_wait_once_witness :
    countWaits (DoWithOptionsM
      { hasRateLimiter := true, disableRetries := false,
        retryPolicy := some DefaultRetryPolicy }
      (fun _ => none) (newRequestWithContextBody none) true none false
      (some GoErr.ctxCanceled)
      (fun _ => { transport := TransportRes.err (GoErr.netErr 0 false false),
                  ctxDoneAtCheck := false })
      (fun _ => { ctxCanceledDuringWait := false, rand01 := FQ.ofInt 0 })).1 = 1 ∧
    (DoWithOptionsM
      { hasRateLimiter := true, disableRetries := false,
        retryPolicy := some DefaultRetryPolicy }
      (fun _ => none) (newRequestWithContextBody none) true none false
      (some GoErr.ctxCanceled)
      (fun _ => { transport := TransportRes.err (GoErr.netErr 0 false false),
                  ctxDoneAtCheck := false })
      (fun _ => { ctxCanceledDuringWait := false, rand01 := FQ.ofInt 0 })).1 =
      [Ev.waitCall] := by
  have h := c1_limiter_wait_once
    { hasRateLimiter := true, disableRetries := false,
      retryPolicy := some DefaultRetryPolicy }
    (fun _ => none) (newRequestWithContextBody none) true none false
    (some GoErr.ctxCanceled)
    (fun _ => { transport := TransportRes.err (GoErr.netErr 0 false false),
                ctxDoneAtCheck := false })
    (fun _ => { ctxCanceledDuringWait := false, rand01 := FQ.ofInt 0 })
    rfl
  exact ⟨h.1, (h.2.2 GoErr.ctxCanceled rfl).1⟩

/-- C1 counterexample: the claim as stated says every retry attempt is
individually preceded by a Wait call, so an execution would need at least
as many Wait calls as attempts.  In this concrete execution (limiter
configured and admitting, first attempt a retryable 503, second attempt a
200) the trace contains two attempts but only one Wait call: retries are
not re-admitted by the limiter. -/
theorem c1_counterexample_wait_not_per_attempt :
    countWaits (DoWithOptionsM
      { hasRateLimiter := true, disableRetries := false,
        retryPolicy := some DefaultRetryPolicy }
      (fun _ => none) (newRequestWithContextBody none) true none false none
      (fun i => if i = 0 then
          { transport := TransportRes.resp
              { StatusCode := 503, retryAfterHeader := "", tag := 0 } false,
            ctxDoneAtCheck := false }
        else
          { transport := TransportRes.resp
              { StatusCode := 200, retryAfterHeader := "", tag := 1 } false,
            ctxDoneAtCheck := false })
      (fun _ => { ctxCanceledDuringWait := false, rand01 := FQ.ofInt 0 })).1 = 1 ∧
    countAtts (DoWithOptionsM
      { hasRateLimiter := true, disableRetries := false,
        retryPolicy := some DefaultRetryPolicy }
      (fun _ => none) (newRequestWithContextBody none) true none false none
      (fun i => if i = 0 then
          { transport := TransportRes.resp
              { StatusCode := 503, retryAfterHeader := "", tag := 0 } false,
            ctxDoneAtCheck := false }
        else
          { transport := TransportRes.resp
              { StatusCode := 200, retryAfterHeader := "", tag := 1 } false,
            ctxDoneAtCheck := false })
      (fun _ => { ctxCanceledDuringWait := false, rand01 := FQ.ofInt 0 })).1 = 2 := by
  exact ⟨by decide, by decide⟩

/-! ## Claim C9: disabled retries -/

/-- C9: when retries are effectively disabled — the client was constructed
with retries off, the per-call option disables them, or no retry policy is
configured — exactly one attempt is performed and its outcome (response
and error) is returned unmodified, even when the attempt fails. -/
theorem c9_disabled_retries_single_attempt (c : ClientM)
    (dateDelay : String → Option Int) (req : ReqM) (vNonNil : Bool)
    (opts : Option RequestOptionsM) (ctxDl : Bool) (limiterErr : Option GoErr)
    (atts : Nat → AttemptWorld) (rounds : Nat → RoundWorld)
    (hdis : c.disableRetries = true ∨ (∃ o, opts = some o ∧ o.DisableRetries = true) ∨
      c.retryPolicy = none)
    (hlim : c.hasRateLimiter = false ∨ limiterErr = none) :
    countAtts (DoWithOptionsM c dateDelay req vNonNil opts ctxDl limiterErr atts rounds).1
      = 1 ∧
    (DoWithOptionsM c dateDelay req vNonNil opts ctxDl limiterErr atts rounds).2 =
      doOnceM ctxDl vNonNil (atts 0) ∧
    lastAttempt (DoWithOptionsM c dateDelay req vNonNil opts ctxDl limiterErr atts rounds).1
      = some (req.bodyContent, (doOnceM ctxDl vNonNil (atts 0)).1,
          (doOnceM ctxDl vNonNil (atts 0)).2) := by
  have hsingle : c.retryPolicy = none ∨ effectiveDisable c opts = true := by
    rcases hdis with h | ⟨o, ho, hdo⟩ | h
    · refine Or.inr ?_
      unfold effectiveDisable
      rw [h]
      rfl
    · refine Or.inr ?_
      unfold effectiveDisable
      rw [ho]
      simp [hdo]
    · exact Or.inl h
  have hcore := doCore_single c dateDelay req vNonNil opts ctxDl atts rounds hsingle
  rcases hcl : c.hasRateLimiter with _ | _
  · rw [DoWithOptionsM_no_limiter c dateDelay req vNonNil opts ctxDl limiterErr atts rounds
      hcl, hcore]
    refine ⟨by rw [countAtts_att]; rfl, rfl, ?_⟩
    rw [lastAttempt_att_none _ _ _ [] rfl]
  · have he : limiterErr = none := by
      rcases hlim with h | h
      · rw [hcl] at h; cases h
      · exact h
    rw [he, DoWithOptionsM_limiter_admits c dateDelay req vNonNil opts ctxDl none atts
      rounds hcl rfl, hcore]
    refine ⟨by rw [countAtts_wait, countAtts_att]; rfl, rfl, ?_⟩
    rw [lastAttempt_wait, lastAttempt_att_none _ _ _ [] rfl]

/-- Witness for c9_disabled_retries_single_attempt: with the per-call
disable flag set, a failing (500) endpoint is attempted exactly once and
its ErrorResponse is returned unmodified. -/
theorem c9_disabled_retries_single_attempt_witness :
    countAtts (DoWithOptionsM
      { hasRateLimiter := false, disableRetries := false,
        retryPolicy := some DefaultRetryPolicy }
      (fun _ => none) (newRequestWithContextBody none) true
      (some { DisableRetries := true }) false none
      (fun _ =>
        { transport := TransportRes.resp
            { StatusCode := 500, retryAfterHeader := "", tag := 0 } false,
          ctxDoneAtCheck := false })
      (fun _ => { ctxCanceledDuringWait := false, rand01 := FQ.ofInt 0 })).1 = 1 ∧
    (DoWithOptionsM
      { hasRateLimiter := false, disableRetries := false,
        retryPolicy := some DefaultRetryPolicy }
      (fun _ => none) (newRequestWithContextBody none) true
      (some { DisableRetries := true }) false none
      (fun _ =>
        { transport := TransportRes.resp
            { StatusCode := 500, retryAfterHeader := "", tag := 0 } false,
          ctxDoneAtCheck := false })
      (fun _ => { ctxCanceledDuringWait := false, rand01 := FQ.ofInt 0 })).2 =
      doOnceM false true
        { transport := TransportRes.resp
            { StatusCode := 500, retryAfterHeader := "", tag := 0 } false,
          ctxDoneAtCheck := false } := by
  have h := c9_disabled_retries_single_attempt
    { hasRateLimiter := false, disableRetries := false,
      retryPolicy := some DefaultRetryPolicy }
    (fun _ => none) (newRequestWithContextBody none) true
    (some { DisableRetries := true }) false none
    (fun _ =>
      { transport := TransportRes.resp
          { StatusCode := 500, retryAfterHeader := "", tag := 0 } false,
        ctxDoneAtCheck := false })
    (fun _ => { ctxCanceledDuringWait := false, rand01 := FQ.ofInt 0 })
    (Or.inr (Or.inl ⟨{ DisableRetries := true }, rfl, rfl⟩))
    (Or.inl rfl)
  exact ⟨h.1, h.2.1⟩

/-! ## Claim C6: retry eligibility classification -/

/-- C6: shouldRetry returns no-retry for every successful attempt (no
transport error, status 200-299) and for every transport-level error that
is a cancellation or deadline error; it returns retry for every other
transport-level error (a transport error yields no response, so resp is
nil in those cases). -/
theorem c6_should_retry_classification (dateDelay : String → Option Int)
    (policy : RetryPolicyM) :
    (∀ r : RespM, 200 ≤ r.StatusCode → r.StatusCode < 300 →
      (shouldRetryM dateDelay (some r) none policy).1 = false) ∧
    (∀ e : GoErr, e.isCancelOrDeadline = true →
      (shouldRetryM dateDelay none (some e) policy).1 = false) ∧
    (∀ e : GoErr, e.isCancelOrDeadline = false →
      (shouldRetryM dateDelay none (some e) policy).1 = true) := by
  refine ⟨?_, ?_, ?_⟩
  · intro r h1 h2
    simp [shouldRetryM, respIs2xx, h1, h2]
  · intro e he
    simp [shouldRetryM, respIs2xx, errRetryDecision, he]
  · intro e he
    simp [shouldRetryM, respIs2xx, errRetryDecision, he]

/-- Witness for c6_should_retry_classification at concrete inputs: a 204
success is not retried, a canceled transport error is not retried, a plain
connection error is retried. -/
theorem c6_should_retry_classification_witness :
    (shouldRetryM (fun _ => none) (some { StatusCode := 204, retryAfterHeader := "", tag := 0 })
      none DefaultRetryPolicy).1 = false ∧
    (shouldRetryM (fun _ => none) none (some GoErr.ctxCanceled) DefaultRetryPolicy).1 = false ∧
    (shouldRetryM (fun _ => none) none (some (GoErr.netErr 0 false false))
      DefaultRetryPolicy).1 = true := by
  have h := c6_should_retry_classification (fun _ => none) DefaultRetryPolicy
  exact ⟨h.1 { StatusCode := 204, retryAfterHeader := "", tag := 0 } (by decide) (by decide),
    h.2.1 GoErr.ctxCanceled rfl, h.2.2 (GoErr.netErr 0 false false) rfl⟩

/-! ## Claim C2: decode errors and retry -/

/-- C2 is contradicted by the code: a decode error on a 2xx response
reaches the final err != nil branch of shouldRetry (whose own comment
says "Retry on network errors"), which classifies it as retryable, so the
executor does perform further attempts.  At the failing input — a 200
response whose body fails to decode, default policy — shouldRetry answers
(true, 0), doOnce surfaces the decode error, and a full execution performs
1 + MaxRetries = 4 attempts instead of stopping after the first. -/
theorem c2_decode_error_retried_bug :
    shouldRetryM (fun _ => none)
      (some { StatusCode := 200, retryAfterHeader := "", tag := 0 })
      (some (GoErr.decodeErr 0)) DefaultRetryPolicy = (true, 0) ∧
    doOnceM false true
      { transport := TransportRes.resp
          { StatusCode := 200, retryAfterHeader := "", tag := 0 } true,
        ctxDoneAtCheck := false } =
      (some { StatusCode := 200, retryAfterHeader := "", tag := 0 },
        some (GoErr.decodeErr 0)) ∧
    countAtts (DoWithOptionsM
      { hasRateLimiter := false, disableRetries := false,
        retryPolicy := some DefaultRetryPolicy }
      (fun _ => none) (newRequestWithContextBody none) true none false none
      (fun i =>
        { transport := TransportRes.resp
            { StatusCode := 200, retryAfterHeader := "", tag := i } true,
          ctxDoneAtCheck := false })
      (fun _ => { ctxCanceledDuringWait := false, rand01 := FQ.ofInt 0 })).1 = 4 ∧
    (DoWithOptionsM
      { hasRateLimiter := false, disableRetries := false,
        retryPolicy := some DefaultRetryPolicy }
      (fun _ => none) (newRequestWithContextBody none) true none false none
      (fun i =>
        { transport := TransportRes.resp
            { StatusCode := 200, retryAfterHeader := "", tag := i } true,
          ctxDoneAtCheck := false })
      (fun _ => { ctxCanceledDuringWait := false, rand01 := FQ.ofInt 0 })).2.2 =
      some (GoErr.decodeErr 3) := by
  exact ⟨by decide, by decide, by decide, by decide⟩

theorem doCore_outcome (c : ClientM) (dateDelay : String → Option Int) (req : ReqM)
    (vNonNil : Bool) (opts : Option RequestOptionsM) (ctxDl : Bool)
    (atts : Nat → AttemptWorld) (rounds : Nat → RoundWorld) (p : RetryPolicyM)
    (hp : c.retryPolicy = some p) (hd : effectiveDisable c opts = false) :
    (1 ≤ countAtts (doCore c dateDelay req vNonNil opts ctxDl atts rounds).1 ∧
      countAtts (doCore c dateDelay req vNonNil opts ctxDl atts rounds).1 ≤
        p.MaxRetries.toNat + 1) ∧
    (∃ b r e, lastAttempt (doCore c dateDelay req vNonNil opts ctxDl atts rounds).1 =
        some (b, r, e) ∧
      (doCore c dateDelay req vNonNil opts ctxDl atts rounds).2.1 = r ∧
      errFromRound ctxDl (doCore c dateDelay req vNonNil opts ctxDl atts rounds).2.2 e) ∧
    ((∀ i, (rounds i).ctxCanceledDuringWait = false) →
      (∀ gb, req.getBody = some gb → gb.failTag = none) →
      ∃ b r e, lastAttempt (doCore c dateDelay req vNonNil opts ctxDl atts rounds).1 =
          some (b, r, e) ∧
        (doCore c dateDelay req vNonNil opts ctxDl atts rounds).2 = (r, e)) := by
  rw [doCore_loop c dateDelay req vNonNil opts ctxDl atts rounds p hp hd]
  have hpair : retryLoopM ctxDl vNonNil p dateDelay req (drainedBody req) atts rounds
      p.MaxRetries.toNat 0 p.InitialBackoff
      ((doOnceM ctxDl vNonNil (atts 0)).1, (doOnceM ctxDl vNonNil (atts 0)).2) =
      ((retryLoopM ctxDl vNonNil p dateDelay req (drainedBody req) atts rounds
        p.MaxRetries.toNat 0 p.InitialBackoff (doOnceM ctxDl vNonNil (atts 0))).1,
       (retryLoopM ctxDl vNonNil p dateDelay req (drainedBody req) atts rounds
        p.MaxRetries.toNat 0 p.InitialBackoff (doOnceM ctxDl vNonNil (atts 0))).2) := by
    rw [Prod.mk.eta, Prod.mk.eta]
  refine ⟨?_, ?_, ?_⟩
  · rw [countAtts_att]
    have hle := retryLoopM_atts_le ctxDl vNonNil p dateDelay req (drainedBody req) atts
      rounds p.MaxRetries.toNat 0 p.InitialBackoff (doOnceM ctxDl vNonNil (atts 0))
    omega
  · rcases retryLoopM_last ctxDl vNonNil p dateDelay req (drainedBody req) atts rounds
      p.MaxRetries.toNat 0 p.InitialBackoff
      (doOnceM ctxDl vNonNil (atts 0)).1 (doOnceM ctxDl vNonNil (atts 0)).2 _ _ hpair with
      ⟨hl, hr1, hr2⟩ | ⟨b0, r0, e0, hl, hr1, hr2⟩
    · exact ⟨req.bodyContent, (doOnceM ctxDl vNonNil (atts 0)).1,
        (doOnceM ctxDl vNonNil (atts 0)).2,
        lastAttempt_att_none _ _ _ _ hl, hr1, hr2⟩
    · exact ⟨b0, r0, e0, lastAttempt_att_some _ _ _ _ _ hl, hr1, hr2⟩
  · intro hnc hgb
    rcases retryLoopM_last_clean ctxDl vNonNil p dateDelay req (drainedBody req) atts rounds
      hnc hgb p.MaxRetries.toNat 0 p.InitialBackoff
      (doOnceM ctxDl vNonNil (atts 0)).1 (doOnceM ctxDl vNonNil (atts 0)).2 _ _ hpair with
      ⟨hl, hr⟩ | ⟨b0, r0, e0, hl, hr⟩
    · exact ⟨req.bodyContent, (doOnceM ctxDl vNonNil (atts 0)).1,
        (doOnceM ctxDl vNonNil (atts 0)).2,
        lastAttempt_att_none _ _ _ _ hl, by rw [hr, Prod.mk.eta]⟩
    · exact ⟨b0, r0, e0, lastAttempt_att_some _ _ _ _ _ hl, hr⟩

/-! ## Claim C7: attempts bound and final outcome -/

/-- C7 (amended): with retries enabled, at most policy.MaxRetries
additional attempts follow the first, and the returned response is the
last attempt's response while the returned error is the last attempt's
error — except that when the context is canceled during an inter-attempt
wait, or the body rebuild's GetBody fails, that error replaces the last
attempt's error (the response still being the last attempt's).  No other
synthesized value is ever returned, and when no such interruption occurs
the result is exactly the outcome of the last attempt performed. -/
theorem c7_final_outcome_of_last_attempt (c : ClientM)
    (dateDelay : String → Option Int) (req : ReqM) (vNonNil : Bool)
    (opts : Option RequestOptionsM) (ctxDl : Bool) (limiterErr : Option GoErr)
    (atts : Nat → AttemptWorld) (rounds : Nat → RoundWorld) (p : RetryPolicyM)
    (hp : c.retryPolicy = some p) (hd : effectiveDisable c opts = false)
    (hlim : c.hasRateLimiter = false ∨ limiterErr = none) :
    (1 ≤ countAtts (DoWithOptionsM c dateDelay req vNonNil opts ctxDl limiterErr atts
        rounds).1 ∧
      countAtts (DoWithOptionsM c dateDelay req vNonNil opts ctxDl limiterErr atts
        rounds).1 ≤ p.MaxRetries.toNat + 1) ∧
    (∃ b r e, lastAttempt (DoWithOptionsM c dateDelay req vNonNil opts ctxDl limiterErr
        atts rounds).1 = some (b, r, e) ∧
      (DoWithOptionsM c dateDelay req vNonNil opts ctxDl limiterErr atts rounds).2.1 = r ∧
      errFromRound ctxDl
        (DoWithOptionsM c dateDelay req vNonNil opts ctxDl limiterErr atts rounds).2.2 e) ∧
    ((∀ i, (rounds i).ctxCanceledDuringWait = false) →
      (∀ gb, req.getBody = some gb → gb.failTag = none) →
      ∃ b r e, lastAttempt (DoWithOptionsM c dateDelay req vNonNil opts ctxDl limiterErr
          atts rounds).1 = some (b, r, e) ∧
        (DoWithOptionsM c dateDelay req vNonNil opts ctxDl limiterErr atts rounds).2 =
          (r, e)) := by
  have hout := doCore_outcome c dateDelay req vNonNil opts ctxDl atts rounds p hp hd
  rcases hcl : c.hasRateLimiter with _ | _
  · rw [DoWithOptionsM_no_limiter c dateDelay req vNonNil opts ctxDl limiterErr atts rounds
      hcl]
    exact hout
  · have he : limiterErr = none := by
      rcases hlim with h | h
      · rw [hcl] at h; cases h
      · exact h
    rw [he, DoWithOptionsM_limiter_admits c dateDelay req vNonNil opts ctxDl none atts
      rounds hcl rfl]
    refine ⟨by rw [countAtts_wait]; exact hout.1, ?_, ?_⟩
    · obtain ⟨b0, r0, e0, hl, hr1, hr2⟩ := hout.2.1
      exact ⟨b0, r0, e0, by rw [lastAttempt_wait]; exact hl, hr1, hr2⟩
    · intro hnc hgb
      obtain ⟨b0, r0, e0, hl, hr⟩ := hout.2.2 hnc hgb
      exact ⟨b0, r0, e0, by rw [lastAttempt_wait]; exact hl, hr⟩

/-- Witness for c7_final_outcome_of_last_attempt: with no interruption, a
503-then-200 run returns exactly the outcome of its last attempt. -/
theorem c7_final_outcome_of_last_attempt_witness :
    ∃ b r e, lastAttempt (DoWithOptionsM
      { hasRateLimiter := false, disableRetries := false,
        retryPolicy := some DefaultRetryPolicy }
      (fun _ => none) (newRequestWithContextBody none) true none false none
      (fun i => if i = 0 then
          { transport := TransportRes.resp
              { StatusCode := 503, retryAfterHeader := "", tag := 0 } false,
            ctxDoneAtCheck := false }
        else
          { transport := TransportRes.resp
              { StatusCode := 200, retryAfterHeader := "", tag := 1 } false,
            ctxDoneAtCheck := false })
      (fun _ => { ctxCanceledDuringWait := false, rand01 := FQ.ofInt 0 })).1 =
        some (b, r, e) ∧
    (DoWithOptionsM
      { hasRateLimiter := false, disableRetries := false,
        retryPolicy := some DefaultRetryPolicy }
      (fun _ => none) (newRequestWithContextBody none) true none false none
      (fun i => if i = 0 then
          { transport := TransportRes.resp
              { StatusCode := 503, retryAfterHeader := "", tag := 0 } false,
            ctxDoneAtCheck := false }
        else
          { transport := TransportRes.resp
              { StatusCode := 200, retryAfterHeader := "", tag := 1 } false,
            ctxDoneAtCheck := false })
      (fun _ => { ctxCanceledDuringWait := false, rand01 := FQ.ofInt 0 })).2 = (r, e) := by
  have h := c7_final_outcome_of_last_attempt
    { hasRateLimiter := false, disableRetries := false,
      retryPolicy := some DefaultRetryPolicy }
    (fun _ => none) (newRequestWithContextBody none) true none false none
    (fun i => if i = 0 then
        { transport := TransportRes.resp
            { StatusCode := 503, retryAfterHeader := "", tag := 0 } false,
          ctxDoneAtCheck := false }
      else
        { transport := TransportRes.resp
            { StatusCode := 200, retryAfterHeader := "", tag := 1 } false,
          ctxDoneAtCheck := false })
    (fun _ => { ctxCanceledDuringWait := false, rand01 := FQ.ofInt 0 })
    DefaultRetryPolicy rfl rfl (Or.inl rfl)
  exact h.2.2 (fun _ => rfl) (fun gb hg => nomatch hg)

/-- C7 counterexample: the claim as stated says the returned value is
always exactly the outcome of the last attempt performed.  In this
concrete execution the first attempt yields a retryable 503 (its outcome
is an ErrorResponse with status 503) and the context is canceled during
the inter-attempt wait: the code returns the context cancellation error
instead of the last attempt's error. -/
theorem c7_counterexample_cancel_during_wait :
    (DoWithOptionsM
      { hasRateLimiter := false, disableRetries := false,
        retryPolicy := some DefaultRetryPolicy }
      (fun _ => none) (newRequestWithContextBody none) true none false none
      (fun _ =>
        { transport := TransportRes.resp
            { StatusCode := 503, retryAfterHeader := "", tag := 0 } false,
          ctxDoneAtCheck := false })
      (fun _ => { ctxCanceledDuringWait := true, rand01 := FQ.ofInt 0 })).2.2 =
      some GoErr.ctxCanceled ∧
    lastAttempt (DoWithOptionsM
      { hasRateLimiter := false, disableRetries := false,
        retryPolicy := some DefaultRetryPolicy }
      (fun _ => none) (newRequestWithContextBody none) true none false none
      (fun _ =>
        { transport := TransportRes.resp
            { StatusCode := 503, retryAfterHeader := "", tag := 0 } false,
          ctxDoneAtCheck := false })
      (fun _ => { ctxCanceledDuringWait := true, rand01 := FQ.ofInt 0 })).1 =
      some (none, some { StatusCode := 503, retryAfterHeader := "", tag := 0 },
        some (GoErr.errorResponse 503 0)) ∧
    some GoErr.ctxCanceled ≠ some (GoErr.errorResponse 503 0) := by
  exact ⟨by decide, by decide, by decide⟩

/-! ## Claim C8: body replay on retries -/

theorem doCore_bodies (c : ClientM) (dateDelay : String → Option Int) (vNonNil : Bool)
    (opts : Option RequestOptionsM) (ctxDl : Bool) (atts : Nat → AttemptWorld)
    (rounds : Nat → RoundWorld) (s : String) :
    ∀ (b : Option String) (r : Option RespM) (e : Option GoErr),
      Ev.att b r e ∈ (doCore c dateDelay (newRequestWithContextBody (some s)) vNonNil opts
        ctxDl atts rounds).1 → b = some s := by
  intro b r e hmem
  rcases hp : c.retryPolicy with _ | p
  · rw [doCore_single c dateDelay (newRequestWithContextBody (some s)) vNonNil opts ctxDl
      atts rounds (Or.inl hp)] at hmem
    rcases List.mem_cons.mp hmem with hx | hx
    · exact (Ev.att.injEq .. ▸ hx).1
    · cases (List.not_mem_nil _ hx)
  · rcases hd : effectiveDisable c opts
    · rw [doCore_loop c dateDelay (newRequestWithContextBody (some s)) vNonNil opts ctxDl
        atts rounds p hp hd] at hmem
      rcases List.mem_cons.mp hmem with hx | hx
      · exact (Ev.att.injEq .. ▸ hx).1
      · exact retryLoopM_bodies ctxDl vNonNil p dateDelay
          (newRequestWithContextBody (some s))
          (drainedBody (newRequestWithContextBody (some s))) atts rounds s rfl
          p.MaxRetries.toNat 0 p.InitialBackoff _ b r e hx
    · rw [doCore_single c dateDelay (newRequestWithContextBody (some s)) vNonNil opts ctxDl
        atts rounds (Or.inr hd)] at hmem
      rcases List.mem_cons.mp hmem with hx | hx
      · exact (Ev.att.injEq .. ▸ hx).1
      · cases (List.not_mem_nil _ hx)

/-- C8: for a request built by newRequestWithContext with a (JSON-encoded)
body, every attempt in every execution — the first and every retry — sends
the full original body content: the first attempt reads the fresh encoded
buffer, and every retry is a structurally fresh Clone whose Body is
re-obtained from GetBody (a snapshot of the original buffer), never the
consumed reader of a previous attempt. -/
theorem c8_full_body_on_every_attempt (c : ClientM) (dateDelay : String → Option Int)
    (vNonNil : Bool) (opts : Option RequestOptionsM) (ctxDl : Bool)
    (limiterErr : Option GoErr) (atts : Nat → AttemptWorld) (rounds : Nat → RoundWorld)
    (s : String) :
    ∀ (b : Option String) (r : Option RespM) (e : Option GoErr),
      Ev.att b r e ∈ (DoWithOptionsM c dateDelay (newRequestWithContextBody (some s))
        vNonNil opts ctxDl limiterErr atts rounds).1 → b = some s := by
  intro b r e hmem
  rcases hcl : c.hasRateLimiter with _ | _
  · rw [DoWithOptionsM_no_limiter c dateDelay (newRequestWithContextBody (some s)) vNonNil
      opts ctxDl limiterErr atts rounds hcl] at hmem
    exact doCore_bodies c dateDelay vNonNil opts ctxDl atts rounds s b r e hmem
  · rcases he : limiterErr with _ | e0
    · rw [he, DoWithOptionsM_limiter_admits c dateDelay (newRequestWithContextBody (some s))
        vNonNil opts ctxDl none atts rounds hcl rfl] at hmem
      rcases List.mem_cons.mp hmem with hx | hx
      · cases hx
      · exact doCore_bodies c dateDelay vNonNil opts ctxDl atts rounds s b r e hx
    · rw [he, DoWithOptionsM_limiter_rejects c dateDelay (newRequestWithContextBody (some s))
        vNonNil opts ctxDl (some e0) atts rounds e0 hcl rfl] at hmem
      rcases List.mem_cons.mp hmem with hx | hx
      · cases hx
      · cases (List.not_mem_nil _ hx)

/-- Witness for c8_full_body_on_every_attempt: in a concrete POST whose
body encodes to "payload", retried once after a 503, the retry attempt's
event carries the full body "payload". -/
theorem c8_full_body_on_every_attempt_witness :
    (Ev.att (some "payload")
        (some { StatusCode := 200, retryAfterHeader := "", tag := 1 }) none ∈
      (DoWithOptionsM
        { hasRateLimiter := false, disableRetries := false,
          retryPolicy := some DefaultRetryPolicy }
        (fun _ => none) (newRequestWithContextBody (some "payload")) true none false none
        (fun i => if i = 0 then
            { transport := TransportRes.resp
                { StatusCode := 503, retryAfterHeader := "", tag := 0 } false,
              ctxDoneAtCheck := false }
          else
            { transport := TransportRes.resp
                { StatusCode := 200, retryAfterHeader := "", tag := 1 } false,
              ctxDoneAtCheck := false })
        (fun _ => { ctxCanceledDuringWait := false, rand01 := FQ.ofInt 0 })).1) ∧
    (some "payload" : Option String) = some "payload" := by
  refine ⟨by decide, ?_⟩
  exact c8_full_body_on_every_attempt
    { hasRateLimiter := false, disableRetries := false,
      retryPolicy := some DefaultRetryPolicy }
    (fun _ => none) true none false none
    (fun i => if i = 0 then
        { transport := TransportRes.resp
            { StatusCode := 503, retryAfterHeader := "", tag := 0 } false,
          ctxDoneAtCheck := false }
      else
        { transport := TransportRes.resp
            { StatusCode := 200, retryAfterHeader := "", tag := 1 } false,
          ctxDoneAtCheck := false })
    (fun _ => { ctxCanceledDuringWait := false, rand01 := FQ.ofInt 0 })
    "payload" (some "payload")
    (some { StatusCode := 200, retryAfterHeader := "", tag := 1 }) none
    (by decide)

/-! ## Claim C10: backoff advances only on computed waits -/

theorem doCore_sleeps (c : ClientM) (dateDelay : String → Option Int) (req : ReqM)
    (vNonNil : Bool) (opts : Option RequestOptionsM) (ctxDl : Bool)
    (atts : Nat → AttemptWorld) (rounds : Nat → RoundWorld) (p : RetryPolicyM)
    (hp : c.retryPolicy = some p) :
    ∀ (bb ba w : Int) (x : Bool),
      Ev.sleep bb ba w x ∈ (doCore c dateDelay req vNonNil opts ctxDl atts rounds).1 →
        (x = true → ba = bb) ∧ (x = false → ba = nextBackoff p bb) := by
  intro bb ba w x hmem
  rcases hd : effectiveDisable c opts
  · rw [doCore_loop c dateDelay req vNonNil opts ctxDl atts rounds p hp hd] at hmem
    rcases List.mem_cons.mp hmem with hx | hx
    · cases hx
    · exact retryLoopM_sleeps ctxDl vNonNil p dateDelay req (drainedBody req) atts rounds
        p.MaxRetries.toNat 0 p.InitialBackoff _ bb ba w x hx
  · rw [doCore_single c dateDelay req vNonNil opts ctxDl atts rounds (Or.inr hd)] at hmem
    rcases List.mem_cons.mp hmem with hx | hx
    · cases hx
    · cases (List.not_mem_nil _ hx)

/-- C10: every completed inter-attempt wait in an execution advances the
running backoff only when it used computed backoff — the new value is
time.Duration(float64(backoff) * BackoffMultiplier), capped at MaxBackoff
— while a wait that used a positive server-supplied Retry-After delay
leaves the running backoff unchanged for subsequent rounds. -/
theorem c10_backoff_only_on_computed_waits (c : ClientM)
    (dateDelay : String → Option Int) (req : ReqM) (vNonNil : Bool)
    (opts : Option RequestOptionsM) (ctxDl : Bool) (limiterErr : Option GoErr)
    (atts : Nat → AttemptWorld) (rounds : Nat → RoundWorld) (p : RetryPolicyM)
    (hp : c.retryPolicy = some p) :
    ∀ (bb ba w : Int) (x : Bool),
      Ev.sleep bb ba w x ∈ (DoWithOptionsM c dateDelay req vNonNil opts ctxDl limiterErr
        atts rounds).1 →
        (x = true → ba = bb) ∧
        (x = false → ba =
          (if FQ.trunc (FQ.mul (FQ.ofInt bb) p.BackoffMultiplier) > p.MaxBackoff
            then p.MaxBackoff
            else FQ.trunc (FQ.mul (FQ.ofInt bb) p.BackoffMultiplier))) := by
  intro bb ba w x hmem
  rcases hcl : c.hasRateLimiter with _ | _
  · rw [DoWithOptionsM_no_limiter c dateDelay req vNonNil opts ctxDl limiterErr atts rounds
      hcl] at hmem
    exact doCore_sleeps c dateDelay req vNonNil opts ctxDl atts rounds p hp bb ba w x hmem
  · rcases he : limiterErr with _ | e0
    · rw [he, DoWithOptionsM_limiter_admits c dateDelay req vNonNil opts ctxDl none atts
        rounds hcl rfl] at hmem
      rcases List.mem_cons.mp hmem with hx | hx
      · cases hx
      · exact doCore_sleeps c dateDelay req vNonNil opts ctxDl atts rounds p hp bb ba w x hx
    · rw [he, DoWithOptionsM_limiter_rejects c dateDelay req vNonNil opts ctxDl (some e0)
        atts rounds e0 hcl rfl] at hmem
      rcases List.mem_cons.mp hmem with hx | hx
      · cases hx
      · cases (List.not_mem_nil _ hx)

/-- Witness for c10_backoff_only_on_computed_waits: in a concrete run the
computed-backoff round advanced 1s to 2s = min(1s * 2, 30s). -/
theorem c10_backoff_only_on_computed_waits_witness :
    (2000000000 : Int) =
      (if FQ.trunc (FQ.mul (FQ.ofInt 1000000000) DefaultRetryPolicy.BackoffMultiplier) >
          DefaultRetryPolicy.MaxBackoff
        then DefaultRetryPolicy.MaxBackoff
        else FQ.trunc (FQ.mul (FQ.ofInt 1000000000) DefaultRetryPolicy.BackoffMultiplier)) := by
  exact (c10_backoff_only_on_computed_waits
    { hasRateLimiter := false, disableRetries := false,
      retryPolicy := some DefaultRetryPolicy }
    (fun _ => none) (newRequestWithContextBody none) true none false none
    (fun i => if i = 0 then
        { transport := TransportRes.resp
            { StatusCode := 503, retryAfterHeader := "", tag := 0 } false,
          ctxDoneAtCheck := false }
      else
        { transport := TransportRes.resp
            { StatusCode := 200, retryAfterHeader := "", tag := 1 } false,
          ctxDoneAtCheck := false })
    (fun _ => { ctxCanceledDuringWait := false, rand01 := FQ.ofInt 0 })
    DefaultRetryPolicy rfl
    1000000000 2000000000 1000000000 false (by decide)).2 rfl

/-! ## Claim C3: Retry-After forms -/

theorem foldlDigits_le (ds : List Char) :
    ∀ x : Nat, x ≤ ds.foldl (fun a c => a * 10 + (c.toNat - '0'.toNat)) x := by
  induction ds with
  | nil => intro x; exact Nat.le_refl x
  | cons c rest ih =>
    intro x
    rw [List.foldl_cons]
    refine le_trans ?_ (ih (x * 10 + (c.toNat - '0'.toNat)))
    omega

theorem leadingIntGo_digits (ds : List Char) :
    ∀ x : Nat, (∀ c ∈ ds, isDigitCh c = true) →
      ds.foldl (fun a c => a * 10 + (c.toNat - '0'.toNat)) x ≤ 2 ^ 63 →
      leadingIntGo x (ds ++ ['s']) =
        some (ds.foldl (fun a c => a * 10 + (c.toNat - '0'.toNat)) x, ['s']) := by
  induction ds with
  | nil =>
    intro x _ _
    simp only [List.nil_append, List.foldl_nil]
    rfl
  | cons c rest ih =>
    intro x hdig hle
    have hc : isDigitCh c = true := hdig c (List.mem_cons_self ..)
    rw [List.foldl_cons] at hle
    have hx1le : x * 10 + (c.toNat - '0'.toNat) ≤ 2 ^ 63 :=
      le_trans (foldlDigits_le rest (x * 10 + (c.toNat - '0'.toNat))) hle
    have hxle : ¬ x > 2 ^ 63 / 10 := by
      have h10 : x * 10 ≤ 2 ^ 63 := by omega
      exact not_lt.mpr ((Nat.le_div_iff_mul_le (by norm_num)).mpr h10)
    rw [List.cons_append]
    have hrec := ih (x * 10 + (c.toNat - '0'.toNat))
      (fun d hd => hdig d (List.mem_cons_of_mem c hd)) hle
    simp only [leadingIntGo]
    rw [if_neg (fun hC => hC hc)]
    rw [if_neg hxle]
    rw [if_neg (not_lt.mpr hx1le)]
    rw [hrec, List.foldl_cons]

theorem durTerms_digits (ds : List Char) (hne : ds ≠ [])
    (hdig : ∀ c ∈ ds, isDigitCh c = true)
    (hle : decDigits ds ≤ 9223372036) :
    durTerms (ds.length + 1 + 1) 0 (ds ++ ['s']) = some (decDigits ds * 1000000000) := by
  obtain ⟨c, ds', rfl⟩ : ∃ c ds', ds = c :: ds' := by
    cases ds with
    | nil => cases hne rfl
    | cons c ds' => exact ⟨c, ds', rfl⟩
  have hc : isDigitCh c = true := hdig c (List.mem_cons_self ..)
  have hle63 : decDigits (c :: ds') ≤ 2 ^ 63 := le_trans hle (by norm_num)
  have hli : leadingInt ((c :: ds') ++ ['s']) = some (decDigits (c :: ds'), ['s']) :=
    leadingIntGo_digits (c :: ds') 0 hdig hle63
  rw [List.cons_append] at hli
  rw [List.cons_append]
  simp only [durTerms]
  rw [if_neg (fun hC => hC (by rw [hc]; exact Bool.or_true _))]
  rw [hli]
  dsimp only
  simp +decide [unitMap, List.takeWhile, List.dropWhile]
  exact ⟨hle, by omega⟩

theorem string_mk_append_s (ds : List Char) :
    String.mk ds ++ "s" = String.mk (ds ++ ['s']) := rfl

theorem ParseDuration_digits (ds : List Char) (hne : ds ≠ [])
    (hdig : ∀ c ∈ ds, isDigitCh c = true)
    (hle : decDigits ds ≤ 9223372036) :
    ParseDuration (String.mk (ds ++ ['s'])) =
      some ((decDigits ds : Int) * 1000000000) := by
  obtain ⟨c, ds', rfl⟩ : ∃ c ds', ds = c :: ds' := by
    cases ds with
    | nil => cases hne rfl
    | cons c ds' => exact ⟨c, ds', rfl⟩
  have hc : isDigitCh c = true := hdig c (List.mem_cons_self ..)
  have hcm : ¬ c = '-' := fun h => by rw [h] at hc; simp [isDigitCh] at hc
  have hcp : ¬ c = '+' := fun h => by rw [h] at hc; simp [isDigitCh] at hc
  have hterms := durTerms_digits (c :: ds') (by simp) hdig hle
  rw [List.cons_append] at hterms
  unfold ParseDuration
  rw [List.cons_append]
  dsimp only
  have hns : ¬ ((c == '-' || c == '+') = true) := by
    intro h
    rcases Bool.or_eq_true_iff.mp h with h1 | h1
    · exact hcm (eq_of_beq h1)
    · exact hcp (eq_of_beq h1)
  rw [if_neg hns]
  dsimp only
  rw [if_neg (by simp)]
  rw [if_neg (by simp)]
  have hfuel : (c :: (ds' ++ ['s'])).length + 1 = (c :: ds').length + 1 + 1 := by simp
  rw [hfuel, hterms]
  dsimp only
  rw [if_neg (fun h => Bool.false_ne_true h)]
  rw [if_neg (by omega)]
  exact congrArg some (by push_cast; ring)

/-- C3 (amended): for a response whose status is in the retryable set (and
which is not a successful outcome), shouldRetry answers retry and attaches
the Retry-After hint.  The hint is honored exactly when the header with
"s" appended parses as a Go duration — this includes every integer count
of seconds within the int64-nanosecond range, but also fractional counts
and unit-suffixed forms — or when the header is an RFC1123 HTTP-date in
the future; a positive hint is used verbatim as the wait before the next
attempt, taking precedence over computed backoff, and every other header
value falls back to computed backoff. -/
theorem c3_retry_after_hint_honored (dateDelay : String → Option Int)
    (policy : RetryPolicyM) (r : RespM) (err : Option GoErr)
    (hstatus : policy.RetryableStatusCodes.contains r.StatusCode = true)
    (hnot2xx : (err.isNone && respIs2xx (some r)) = false) :
    shouldRetryM dateDelay (some r) err policy = (true, retryAfterHint dateDelay r) ∧
    (∀ d : Int, r.retryAfterHeader ≠ "" →
      ParseDuration (r.retryAfterHeader ++ "s") = some d →
      retryAfterHint dateDelay r = d) ∧
    (∀ ds : List Char, ds ≠ [] → (∀ ch ∈ ds, isDigitCh ch = true) →
      decDigits ds ≤ 9223372036 → r.retryAfterHeader = String.mk ds →
      retryAfterHint dateDelay r = (decDigits ds : Int) * 1000000000) ∧
    (r.retryAfterHeader ≠ "" → ParseDuration (r.retryAfterHeader ++ "s") = none →
      (∀ delay : Int, dateDelay r.retryAfterHeader = some delay →
        (0 < delay → retryAfterHint dateDelay r = delay) ∧
        (¬ 0 < delay → retryAfterHint dateDelay r = 0)) ∧
      (dateDelay r.retryAfterHeader = none → retryAfterHint dateDelay r = 0)) ∧
    (∀ (ctxDl vNonNil : Bool) (req : ReqM) (consumedBody : Option String)
      (atts : Nat → AttemptWorld) (rounds : Nat → RoundWorld)
      (remaining retries : Nat) (backoff : Int),
      (rounds retries).ctxCanceledDuringWait = false →
      (0 < retryAfterHint dateDelay r →
        ∃ rest, (retryLoopM ctxDl vNonNil policy dateDelay req consumedBody atts rounds
          (remaining + 1) retries backoff (some r, err)).1 =
          Ev.sleep backoff backoff (retryAfterHint dateDelay r) true :: rest) ∧
      (¬ 0 < retryAfterHint dateDelay r →
        ∃ rest, (retryLoopM ctxDl vNonNil policy dateDelay req consumedBody atts rounds
          (remaining + 1) retries backoff (some r, err)).1 =
          Ev.sleep backoff (nextBackoff policy backoff)
            (backoff - jitterAmount policy (rounds retries).rand01 backoff) false ::
            rest)) := by
  have h1 : shouldRetryM dateDelay (some r) err policy =
      (true, retryAfterHint dateDelay r) := by
    simp only [shouldRetryM]
    rw [if_neg (fun h => by rw [hnot2xx] at h; cases h)]
    rw [if_pos hstatus]
  refine ⟨h1, ?_, ?_, ?_, ?_⟩
  · intro d hhe hpd
    unfold retryAfterHint
    rw [if_neg hhe, hpd]
  · intro ds hne hdig hdd hhe
    unfold retryAfterHint
    rw [hhe]
    rw [if_neg (fun h => hne (by simpa using congrArg String.data h))]
    rw [string_mk_append_s, ParseDuration_digits ds hne hdig hdd]
  · intro hhe hpd
    constructor
    · intro delay hdate
      unfold retryAfterHint
      rw [if_neg hhe, hpd, hdate]
      constructor
      · intro hpos
        dsimp only
        rw [if_pos hpos]
      · intro hpos
        dsimp only
        rw [if_neg hpos]
    · intro hdate
      unfold retryAfterHint
      rw [if_neg hhe, hpd, hdate]
  · intro ctxDl vNonNil req consumedBody atts rounds remaining retries backoff hc
    constructor
    · intro hpos
      have := retryLoopM_explicit_first ctxDl vNonNil policy dateDelay req consumedBody
        atts rounds remaining retries backoff (some r) err
        (by rw [h1]) (by rw [h1]; exact hpos) hc
      rw [h1] at this
      exact this
    · intro hpos
      have := retryLoopM_computed_first ctxDl vNonNil policy dateDelay req consumedBody
        atts rounds remaining retries backoff (some r) err
        (by rw [h1]) (by rw [h1]; exact hpos) hc
      exact this

/-- Witness for c3_retry_after_hint_honored: a 429 with header "120" is
retried with an explicit hint of 120 seconds. -/
theorem c3_retry_after_hint_honored_witness :
    shouldRetryM (fun _ => none)
      (some { StatusCode := 429, retryAfterHeader := "120", tag := 0 })
      none DefaultRetryPolicy = (true, 120000000000) := by
  have h := c3_retry_after_hint_honored (fun _ => none) DefaultRetryPolicy
    { StatusCode := 429, retryAfterHeader := "120", tag := 0 } none
    (by decide) (by decide)
  have h2 := h.2.2.1 ['1', '2', '0'] (by decide) (by decide) (by decide) rfl
  have h3 : decDigits ['1', '2', '0'] = 120 := by decide
  rw [h.1, h2, h3]
  norm_num

/-- C3 counterexample: the header "2m" is neither an integer count of
seconds nor an HTTP-date, yet the code honors it rather than ignoring it:
ParseDuration("2m" + "s") reads "2ms" as 2 milliseconds, shouldRetry
returns that as the explicit delay, and the executor waits exactly
2000000 ns with the explicit flag set, overriding the 1 s initial
backoff. -/
theorem c3_counterexample_unit_suffix_honored :
    isIntSecondsString "2m" = false ∧
    ParseDuration ("2m" ++ "s") = some 2000000 ∧
    shouldRetryM (fun _ => none)
      (some { StatusCode := 429, retryAfterHeader := "2m", tag := 0 })
      none DefaultRetryPolicy = (true, 2000000) ∧
    (DoWithOptionsM
      { hasRateLimiter := false, disableRetries := false,
        retryPolicy := some DefaultRetryPolicy }
      (fun _ => none) (newRequestWithContextBody none) true none false none
      (fun i => if i = 0 then
          { transport := TransportRes.resp
              { StatusCode := 429, retryAfterHeader := "2m", tag := 0 } false,
            ctxDoneAtCheck := false }
        else
          { transport := TransportRes.resp
              { StatusCode := 200, retryAfterHeader := "", tag := 1 } false,
            ctxDoneAtCheck := false })
      (fun _ => { ctxCanceledDuringWait := false, rand01 := FQ.ofInt 0 })).1 =
      [Ev.att none (some { StatusCode := 429, retryAfterHeader := "2m", tag := 0 })
          (some (GoErr.errorResponse 429 0)),
        Ev.sleep 1000000000 1000000000 2000000 true,
        Ev.att none (some { StatusCode := 200, retryAfterHeader := "", tag := 1 }) none] := by
  exact ⟨by decide, by decide, by decide, by decide⟩

end Snipeit
